import Mathlib

/-!
Verification development for the premium-entitlement and safe-database
subsystem of the Efkalphav2 Discord-bot repository.

The Lean definitions below are shallow embeddings of the Python source:

* `PremiumFeatureAccess` — `src/utils/premium_feature_access.py`
  (feature registry, level lookup, feature-access manager).
* `MongoModels` — `src/utils/mongodb_models.py` (`MongoModel.to_dict`,
  `from_dict`, `save`) over an explicit document/store model.
* `SafeMongo` — `src/utils/safe_mongodb.py` (`SafeMongoDBResult`,
  connection handling, CRUD wrappers) over an explicit driver-outcome model.
* `Enhanced` — `src/utils/premium_manager_enhanced.py` (cache + store
  read/write paths of the enhanced `PremiumManager`).
* `PModels` — the typed premium models used by `src/utils/premium_manager.py`;
  the model classes themselves (`premium_models.py`) are not in the sources,
  so they are modelled from the specification where noted.

Timestamps are modelled as natural numbers (seconds); `datetime` values that
only carry sub-second precision in the source are modelled at millisecond
granularity where this matters (`MongoModels`).
-/

namespace PremiumFeatureAccess

/-- A premium feature as defined by `PremiumFeature.__init__` in
`premium_feature_access.py`: a name, description, required access level and
category. -/
structure PremiumFeature where
  name : String
  description : String
  required_level : Nat
  category : String
deriving DecidableEq

/-- The feature registry `PremiumFeatureRegistry`: the values of the
`features` dict in insertion order.  Python dict semantics: registering a
feature whose name is already present overwrites the value in place,
otherwise it is appended. -/
def registerFeature (reg : List PremiumFeature) (f : PremiumFeature) : List PremiumFeature :=
  if reg.any (fun g => g.name = f.name) then
    reg.map (fun g => if g.name = f.name then f else g)
  else
    reg ++ [f]

/-- `PremiumFeatureRegistry.get_feature`: dict lookup by feature name
(first — and, given dict key uniqueness, only — entry with that name). -/
def get_feature (reg : List PremiumFeature) (feature_name : String) : Option PremiumFeature :=
  reg.find? (fun f => f.name = feature_name)

/-- `PremiumFeatureRegistry.get_features_by_level`: all registered features
whose `required_level` is at most the given level, in registry order. -/
def get_features_by_level (reg : List PremiumFeature) (level : Nat) : List PremiumFeature :=
  reg.filter (fun f => f.required_level ≤ level)

end PremiumFeatureAccess

/-- C4: for every registry state and levels L1 < L2, the features returned at
level L1 form a subset of those returned at level L2, and
`get_features_by_level` returns exactly the registered features whose
`required_level` is at most the queried level. -/
theorem c4_features_by_level_monotone :
    (∀ (reg : List PremiumFeatureAccess.PremiumFeature) (L1 L2 : Nat), L1 < L2 →
      ∀ f ∈ PremiumFeatureAccess.get_features_by_level reg L1,
        f ∈ PremiumFeatureAccess.get_features_by_level reg L2) ∧
    (∀ (reg : List PremiumFeatureAccess.PremiumFeature) (level : Nat)
        (f : PremiumFeatureAccess.PremiumFeature),
      f ∈ PremiumFeatureAccess.get_features_by_level reg level ↔
        f ∈ reg ∧ f.required_level ≤ level) := by
  constructor
  · intro reg L1 L2 hlt f hf
    rw [PremiumFeatureAccess.get_features_by_level, List.mem_filter] at hf ⊢
    rcases hf with ⟨hmem, hlev⟩
    refine ⟨hmem, ?_⟩
    simp only [decide_eq_true_eq] at hlev ⊢
    omega
  · intro reg level f
    rw [PremiumFeatureAccess.get_features_by_level, List.mem_filter]
    simp only [decide_eq_true_eq]

/-- C4 witness: the monotonicity part instantiated at a concrete registry and
levels 1 < 2. -/
theorem c4_features_by_level_monotone_witness :
    ∀ f ∈ PremiumFeatureAccess.get_features_by_level
        [⟨"advanced_logging", "d", 1, "Logging"⟩] 1,
      f ∈ PremiumFeatureAccess.get_features_by_level
        [⟨"advanced_logging", "d", 1, "Logging"⟩] 2 :=
  c4_features_by_level_monotone.1 [⟨"advanced_logging", "d", 1, "Logging"⟩] 1 2 (by decide)

namespace MongoModels

/-- A document field value as it appears in a persisted mapping handled by
`mongodb_models.py`.  `date ms` models a native `datetime` by its epoch
timestamp in milliseconds; `dateWrap ms` models the backend wrapper
`{"$date": ms}` that `MongoModel.from_dict` converts via
`datetime.fromtimestamp(value["$date"] / 1000.0)`; `null` models Python
`None`. -/
inductive MVal where
  | str (s : String)
  | int (n : Int)
  | bool (b : Bool)
  | null
  | date (ms : Int)
  | dateWrap (ms : Int)
deriving DecidableEq

/-- A plain document mapping: keys to values, in dict insertion order. -/
abbrev MDoc := List (String × MVal)

/-- First value stored under a key (Python dict lookup). -/
def mlookup (k : String) : MDoc → Option MVal
  | [] => none
  | kv :: rest => if kv.1 = k then some kv.2 else mlookup k rest

/-- The per-value conversion done by `MongoModel.from_dict`: a dict of the
form `{"$date": ms}` becomes a native datetime for the same instant; every
other value is kept as-is. -/
def convertVal : MVal → MVal
  | .dateWrap ms => .date ms
  | v => v

/-- The conversion of a single dict item by `MongoModel.from_dict`: the key
is kept, the value converted. -/
def convKV (kv : String × MVal) : String × MVal :=
  (kv.1, convertVal kv.2)

/-- An in-memory `MongoModel` record: `_id` (which Python stores as `None`
when absent, modelled `none`) plus the remaining instance attributes in
assignment order. -/
structure MongoRecord where
  id : Option MVal
  attrs : List (String × MVal)
deriving DecidableEq

/-- How `MongoModel.__init__` derives `self._id` from
`kwargs.pop("_id", None)`: an absent key and a stored `None` both leave
`self._id = None`. -/
def idFromLookup : Option MVal → Option MVal
  | some .null => none
  | some v => some v
  | none => none

/-- `MongoModel.from_dict` followed by `__init__`: deep-copy the data,
convert `{"$date": ms}` values to native datetimes, pop `_id`, and keep the
remaining keys as instance attributes. -/
def from_dict (data : MDoc) : MongoRecord :=
  let processed := data.map convKV
  { id := idFromLookup (mlookup "_id" processed),
    attrs := processed.filter (fun kv => kv.1 ≠ "_id") }

/-- Python `key.startswith("_")`, by inspecting the first character. -/
def startsWithUnderscore (k : String) : Bool :=
  match k.data with
  | [] => false
  | c :: _ => c = '_'

/-- Key filter used by `MongoModel.to_dict` over `self.__dict__`: attributes
whose name starts with an underscore, or equals `collection_name` or
`indexes`, are skipped. -/
def publicKey (k : String) : Bool :=
  !startsWithUnderscore k && !(decide (k = "collection_name")) && !(decide (k = "indexes"))

/-- `MongoModel.to_dict`: `_id` first when set (Python `is not None`),
then every public instance attribute. -/
def to_dict (r : MongoRecord) : MDoc :=
  (match r.id with
   | some v => [("_id", v)]
   | none => []) ++ r.attrs.filter (fun kv => publicKey kv.1)

/-- A valid persisted document for a model type: every key is either `_id`
itself or an ordinary public field name (no leading underscore, not one of
the class-level attribute names that `to_dict` skips). -/
def validDoc (data : MDoc) : Prop :=
  ∀ kv ∈ data, kv.1 = "_id" ∨ publicKey kv.1 = true

instance : DecidablePred validDoc := fun d =>
  inferInstanceAs (Decidable (∀ kv ∈ d, kv.1 = "_id" ∨ publicKey kv.1 = true))

theorem convertVal_idem (v : MVal) : convertVal (convertVal v) = convertVal v := by
  cases v <;> rfl

theorem convertVal_ne_null {v : MVal} (h : v ≠ MVal.null) : convertVal v ≠ MVal.null := by
  cases v <;> simp [convertVal] at h ⊢

theorem mlookup_append (k : String) (d e : MDoc) :
    mlookup k (d ++ e) = (mlookup k d).orElse (fun _ => mlookup k e) := by
  induction d with
  | nil => simp [mlookup]
  | cons kv rest ih =>
    by_cases h : kv.1 = k <;> simp [mlookup, h, ih]

theorem mlookup_eq_none_of_no_key (k : String) (d : MDoc)
    (h : ∀ kv ∈ d, kv.1 ≠ k) : mlookup k d = none := by
  induction d with
  | nil => rfl
  | cons kv rest ih =>
    have hk : kv.1 ≠ k := h kv (by simp)
    simp only [mlookup, if_neg hk]
    exact ih (fun kv2 hm => h kv2 (by simp [hm]))

theorem filter_key_mem {p : String × MVal → Bool} {d : MDoc} {kv : String × MVal}
    (h : kv ∈ d.filter p) : kv ∈ d :=
  List.mem_of_mem_filter h

/-- Mongo `$set` of a single field: replace the value under the key when the
key is present, otherwise add the field. -/
def msetField (doc : MDoc) (k : String) (v : MVal) : MDoc :=
  if doc.any (fun kv => kv.1 = k) then
    doc.map (fun kv => if kv.1 = k then (k, v) else kv)
  else
    doc ++ [(k, v)]

/-- A `{"$set": data}` update payload applied to one document: every field of
`data` is set in turn. -/
def applySet (doc : MDoc) (data : MDoc) : MDoc :=
  data.foldl (fun acc kv => msetField acc kv.1 kv.2) doc

/-- `update_one(collection, {"_id": i}, {"$set": data})` (no upsert): the
first stored document whose `_id` equals `i` is `$set`-updated; when nothing
matches the store is unchanged. -/
def updateById (store : List MDoc) (i : MVal) (data : MDoc) : List MDoc :=
  match store with
  | [] => []
  | doc :: rest =>
    if mlookup "_id" doc = some i then applySet doc data :: rest
    else doc :: updateById rest i data

/-- `insert_one`: the driver persists the document together with a freshly
generated `_id` and reports that id back (`result.data.inserted_id`). -/
def insertWithId (store : List MDoc) (freshId : MVal) (data : MDoc) : List MDoc :=
  store ++ [("_id", freshId) :: data]

/-- `MongoModel.save`: with an identity, an update-by-`_id` with `$set`
semantics; without one, an insert whose generated identity is back-filled
onto the in-memory record. -/
def save (r : MongoRecord) (store : List MDoc) (freshId : MVal) :
    MongoRecord × List MDoc :=
  match r.id with
  | some i => (r, updateById store i (to_dict r))
  | none => ({ r with id := some freshId }, insertWithId store freshId (to_dict r))

/-- Number of persisted rows whose `_id` field holds `i`. -/
def countId (store : List MDoc) (i : MVal) : Nat :=
  (store.filter (fun doc => mlookup "_id" doc = some i)).length

theorem mlookup_msetField_self (doc : MDoc) (k : String) (v : MVal) :
    mlookup k (msetField doc k v) = some v := by
  rw [msetField]
  by_cases h : doc.any (fun kv => kv.1 = k)
  · rw [if_pos h]
    induction doc with
    | nil => simp at h
    | cons kv rest ih =>
      by_cases hk : kv.1 = k
      · simp [mlookup, hk]
      · simp only [List.any_cons, Bool.or_eq_true, decide_eq_true_eq] at h
        rcases h with h | h
        · exact absurd h hk
        · simp only [List.map_cons, if_neg hk, mlookup, hk, if_false]
          exact ih h
  · rw [if_neg h]
    have hnone : mlookup k doc = none := by
      apply mlookup_eq_none_of_no_key
      intro kv hkv
      simp only [List.any_eq_true, decide_eq_true_eq] at h
      exact fun he => h ⟨kv, hkv, he⟩
    rw [mlookup_append, hnone]
    simp [mlookup]

theorem mlookup_map_setk (k k0 : String) (v : MVal) (hne : k ≠ k0) :
    ∀ rest : MDoc,
      mlookup k0 (rest.map (fun kv => if kv.1 = k then (k, v) else kv)) =
        mlookup k0 rest := by
  intro rest
  induction rest with
  | nil => rfl
  | cons kv tail ih =>
    simp only [List.map_cons]
    by_cases hk : kv.1 = k
    · have hk0 : ¬ kv.1 = k0 := fun hh => hne (hk ▸ hh)
      rw [if_pos hk]
      show (if k = k0 then some v
            else mlookup k0 (tail.map fun kv => if kv.1 = k then (k, v) else kv)) =
          (if kv.1 = k0 then some kv.2 else mlookup k0 tail)
      rw [if_neg hne, if_neg hk0]
      exact ih
    · rw [if_neg hk]
      show (if kv.1 = k0 then some kv.2
            else mlookup k0 (tail.map fun kv => if kv.1 = k then (k, v) else kv)) =
          (if kv.1 = k0 then some kv.2 else mlookup k0 tail)
      rw [ih]

theorem mlookup_msetField_other (doc : MDoc) (k k0 : String) (v : MVal)
    (hne : k ≠ k0) : mlookup k0 (msetField doc k v) = mlookup k0 doc := by
  rw [msetField]
  by_cases h : doc.any (fun kv => kv.1 = k)
  · rw [if_pos h]
    exact mlookup_map_setk k k0 v hne doc
  · rw [if_neg h, mlookup_append]
    rcases hmv : mlookup k0 doc with _ | w
    · simp [mlookup, hne]
    · simp

theorem mlookup_applySet_no_key (k0 : String) :
    ∀ (data doc : MDoc), (∀ kv ∈ data, kv.1 ≠ k0) →
      mlookup k0 (applySet doc data) = mlookup k0 doc := by
  intro data
  induction data with
  | nil => intro doc _; rfl
  | cons kv rest ih =>
    intro doc h
    show mlookup k0 (applySet (msetField doc kv.1 kv.2) rest) = mlookup k0 doc
    rw [ih (msetField doc kv.1 kv.2) (fun kv2 hm => h kv2 (List.mem_cons_of_mem _ hm))]
    exact mlookup_msetField_other doc kv.1 k0 kv.2 (h kv (List.mem_cons_self _ _))

theorem publicKey_ne_id {k : String} (h : publicKey k = true) : k ≠ "_id" := by
  intro hk
  subst hk
  have : publicKey "_id" = false := by decide
  rw [this] at h
  exact Bool.false_ne_true h

theorem to_dict_of_id (r : MongoRecord) (i : MVal) (h : r.id = some i) :
    to_dict r = ("_id", i) :: r.attrs.filter (fun kv => publicKey kv.1) := by
  rw [to_dict, h]
  rfl

theorem applySet_to_dict_keeps_id (doc : MDoc) (r : MongoRecord) (i : MVal)
    (hr : r.id = some i) :
    mlookup "_id" (applySet doc (to_dict r)) = some i := by
  have hbase : ∀ kv ∈ r.attrs.filter (fun kv => publicKey kv.1), kv.1 ≠ "_id" := by
    intro kv hkv
    exact publicKey_ne_id (List.mem_filter.mp hkv).2
  rw [to_dict_of_id r i hr]
  show mlookup "_id"
      (applySet (msetField doc "_id" i) (r.attrs.filter fun kv => publicKey kv.1)) = some i
  rw [mlookup_applySet_no_key "_id" _ _ hbase]
  exact mlookup_msetField_self doc "_id" i

theorem updateById_length (store : List MDoc) (i : MVal) (data : MDoc) :
    (updateById store i data).length = store.length := by
  induction store with
  | nil => rfl
  | cons doc rest ih =>
    rw [updateById]
    by_cases h : mlookup "_id" doc = some i
    · simp [h]
    · simp [h, ih]

theorem countId_cons (d : MDoc) (s : List MDoc) (j : MVal) :
    countId (d :: s) j = (if mlookup "_id" d = some j then 1 else 0) + countId s j := by
  rw [countId, List.filter_cons]
  by_cases hj : mlookup "_id" d = some j
  · simp [hj, countId, Nat.add_comm]
  · simp [hj, countId]

theorem updateById_countId (store : List MDoc) (r : MongoRecord) (i j : MVal)
    (hr : r.id = some i) :
    countId (updateById store i (to_dict r)) j = countId store j := by
  induction store with
  | nil => rfl
  | cons doc rest ih =>
    rw [updateById]
    by_cases h : mlookup "_id" doc = some i
    · rw [if_pos h]
      have hkeep : mlookup "_id" (applySet doc (to_dict r)) = some i :=
        applySet_to_dict_keeps_id doc r i hr
      rw [countId_cons, countId_cons, hkeep, h]
    · rw [if_neg h, countId_cons, countId_cons, ih]

theorem countId_append (s t : List MDoc) (j : MVal) :
    countId (s ++ t) j = countId s j + countId t j := by
  rw [countId, countId, countId, List.filter_append, List.length_append]

theorem countId_insert_self (data : MDoc) (f : MVal) :
    countId [("_id", f) :: data] f = 1 := by
  rw [countId, List.filter_cons]
  simp [mlookup]

/-- C8: `MongoModel.save` with an identity set performs an update-by-`_id`
with `$set` semantics and inserts nothing (store length and all identity row
counts are unchanged), so saving twice leaves exactly one row for that
identity; without an identity it inserts exactly one row, back-fills the
generated id onto the record, and the second save of the same record updates
instead of duplicating. -/
theorem c8_save_idempotent :
    (∀ (r : MongoRecord) (store : List MDoc) (i freshId freshId2 : MVal),
        r.id = some i →
        (save r store freshId).2.length = store.length ∧
        (∀ j, countId (save r store freshId).2 j = countId store j) ∧
        (countId store i = 1 →
          countId (save (save r store freshId).1
            (save r store freshId).2 freshId2).2 i = 1)) ∧
    (∀ (r : MongoRecord) (store : List MDoc) (freshId freshId2 : MVal),
        r.id = none → countId store freshId = 0 →
        (save r store freshId).1.id = some freshId ∧
        countId (save r store freshId).2 freshId = 1 ∧
        countId (save (save r store freshId).1
          (save r store freshId).2 freshId2).2 freshId = 1 ∧
        (save (save r store freshId).1 (save r store freshId).2 freshId2).2.length =
          (save r store freshId).2.length) := by
  constructor
  · intro r store i f1 f2 hid
    have hsave : save r store f1 = (r, updateById store i (to_dict r)) := by
      rw [save, hid]
    rw [hsave]
    refine ⟨updateById_length store i (to_dict r),
      fun j => updateById_countId store r i j hid, ?_⟩
    intro hone
    have hsave2 : save r (updateById store i (to_dict r)) f2 =
        (r, updateById (updateById store i (to_dict r)) i (to_dict r)) := by
      rw [save, hid]
    rw [hsave2]
    rw [updateById_countId _ r i i hid, updateById_countId _ r i i hid]
    exact hone
  · intro r store f1 f2 hid h0
    have hsave : save r store f1 =
        ({ r with id := some f1 }, insertWithId store f1 (to_dict r)) := by
      rw [save, hid]
    have hid2 : ({ r with id := some f1 } : MongoRecord).id = some f1 := rfl
    have hsave2 : save { r with id := some f1 } (insertWithId store f1 (to_dict r)) f2 =
        ({ r with id := some f1 },
          updateById (insertWithId store f1 (to_dict r)) f1
            (to_dict { r with id := some f1 })) := by
      rw [save]
    rw [hsave]
    refine ⟨rfl, ?_, ?_, ?_⟩
    · rw [insertWithId, countId_append, h0, countId_insert_self]
    · rw [hsave2, updateById_countId _ _ f1 f1 hid2,
        insertWithId, countId_append, h0, countId_insert_self]
    · rw [hsave2, updateById_length]

/-- C8 witness: the insert-then-update half at a concrete record and empty
store. -/
theorem c8_save_idempotent_witness :
    (save ⟨none, [("guild_id", .str "1")]⟩ [] (.int 5)).1.id = some (.int 5) ∧
    countId (save ⟨none, [("guild_id", .str "1")]⟩ [] (.int 5)).2 (.int 5) = 1 ∧
    countId (save (save ⟨none, [("guild_id", .str "1")]⟩ [] (.int 5)).1
      (save ⟨none, [("guild_id", .str "1")]⟩ [] (.int 5)).2 (.int 6)).2 (.int 5) = 1 ∧
    (save (save ⟨none, [("guild_id", .str "1")]⟩ [] (.int 5)).1
      (save ⟨none, [("guild_id", .str "1")]⟩ [] (.int 5)).2 (.int 6)).2.length =
      (save ⟨none, [("guild_id", .str "1")]⟩ [] (.int 5)).2.length :=
  c8_save_idempotent.2 ⟨none, [("guild_id", .str "1")]⟩ [] (.int 5) (.int 6) rfl rfl

theorem map_fix {α : Type} (f : α → α) (l : List α) (h : ∀ x ∈ l, f x = x) :
    l.map f = l := by
  induction l with
  | nil => rfl
  | cons x rest ih =>
    simp only [List.map_cons, h x (by simp), List.cons.injEq, true_and]
    exact ih (fun y hy => h y (by simp [hy]))

theorem mlookup_map_conv_fixed {k : String} {d : MDoc} {v : MVal}
    (h : mlookup k (d.map convKV) = some v) : convertVal v = v := by
  induction d with
  | nil => simp [mlookup] at h
  | cons kv rest ih =>
    simp only [List.map_cons, mlookup, convKV] at h
    by_cases hk : kv.1 = k
    · rw [if_pos hk] at h
      cases h
      exact convertVal_idem kv.2
    · rw [if_neg hk] at h
      exact ih h

theorem idFromLookup_some {v : MVal} (hv : v ≠ MVal.null) :
    idFromLookup (some v) = some v := by
  cases v <;> simp [idFromLookup] at hv ⊢

theorem from_dict_attrs_no_id (d : MDoc) :
    ∀ kv ∈ (from_dict d).attrs, kv.1 ≠ "_id" := by
  intro kv hkv
  simp only [from_dict] at hkv
  have := List.of_mem_filter hkv
  simpa using this

theorem from_dict_attrs_conv_fixed (d : MDoc) :
    ∀ kv ∈ (from_dict d).attrs, convKV kv = kv := by
  intro kv hkv
  simp only [from_dict] at hkv
  have hmem : kv ∈ d.map convKV := List.mem_of_mem_filter hkv
  rcases List.mem_map.mp hmem with ⟨kv0, _, hkv0⟩
  have : convertVal kv.2 = kv.2 := by
    rw [← hkv0]
    simp only [convKV]
    exact convertVal_idem kv0.2
  cases kv with
  | mk k v => simpa [convKV] using this

theorem from_dict_attrs_public {d : MDoc} (h : validDoc d) :
    ∀ kv ∈ (from_dict d).attrs, publicKey kv.1 = true := by
  intro kv hkv
  have hnid : kv.1 ≠ "_id" := from_dict_attrs_no_id d kv hkv
  simp only [from_dict] at hkv
  have hmem : kv ∈ d.map convKV := List.mem_of_mem_filter hkv
  rcases List.mem_map.mp hmem with ⟨kv0, hkv0mem, hkv0⟩
  have hkey : kv0.1 = kv.1 := by rw [← hkv0]; rfl
  rcases h kv0 hkv0mem with hid | hpub
  · exact absurd (hkey ▸ hid) hnid
  · exact hkey ▸ hpub

/-- C9: for every valid persisted document (date-wrapped fields included),
deserializing, serializing and deserializing again yields the same record as
a single deserialization: `from_dict (to_dict (from_dict d)) = from_dict d`,
so `from_dict ∘ to_dict` reproduces an equivalent record (same `_id`, same
public attribute values) for every record built from a valid document. -/
theorem from_dict_def (data : MDoc) :
    from_dict data =
      { id := idFromLookup (mlookup "_id" (data.map convKV)),
        attrs := (data.map convKV).filter (fun kv => kv.1 ≠ "_id") } := rfl

theorem from_dict_id_some {d : MDoc} {v : MVal} (hi : (from_dict d).id = some v) :
    v ≠ MVal.null ∧ convertVal v = v := by
  rw [from_dict_def] at hi
  rcases hm : mlookup "_id" (d.map convKV) with _ | w
  · rw [hm] at hi
    simp [idFromLookup] at hi
  · rw [hm] at hi
    have hwfix := mlookup_map_conv_fixed hm
    cases w <;> simp only [idFromLookup, Option.some.injEq] at hi <;>
      first
        | exact absurd hi (by simp)
        | (subst hi; exact ⟨by simp, hwfix⟩)

theorem c9_roundtrip (d : MDoc) (h : validDoc d) :
    from_dict (to_dict (from_dict d)) = from_dict d := by
  have hA1 := from_dict_attrs_no_id d
  have hA2 := from_dict_attrs_conv_fixed d
  have hA3 := from_dict_attrs_public h
  have hAfix : (from_dict d).attrs.map convKV = (from_dict d).attrs :=
    map_fix convKV (from_dict d).attrs hA2
  have hApub : (from_dict d).attrs.filter (fun kv => publicKey kv.1) = (from_dict d).attrs :=
    List.filter_eq_self.mpr (fun kv hkv => hA3 kv hkv)
  have hAnid : (from_dict d).attrs.filter (fun kv => kv.1 ≠ "_id") = (from_dict d).attrs :=
    List.filter_eq_self.mpr (fun kv hkv => by simpa using hA1 kv hkv)
  have hAnone : mlookup "_id" (from_dict d).attrs = none :=
    mlookup_eq_none_of_no_key _ _ hA1
  rcases hi : (from_dict d).id with _ | v
  · -- the record has no identity: `to_dict` emits only the attributes
    have htd : to_dict (from_dict d) = (from_dict d).attrs := by
      rw [to_dict, hi, hApub]
      rfl
    rw [htd, from_dict_def, hAfix, hAnone, hAnid]
    rw [show idFromLookup none = none from rfl, ← hi]
  · -- the record carries `_id = v`
    rcases from_dict_id_some hi with ⟨hvnull, hvfix⟩
    have htd : to_dict (from_dict d) = ("_id", v) :: (from_dict d).attrs := by
      rw [to_dict, hi, hApub]
      rfl
    rw [htd, from_dict_def]
    have hmap : (("_id", v) :: (from_dict d).attrs).map convKV =
        ("_id", v) :: (from_dict d).attrs := by
      simp only [List.map_cons, hAfix, List.cons.injEq, and_true]
      simp [convKV, hvfix]
    rw [hmap]
    have hl : mlookup "_id" (("_id", v) :: (from_dict d).attrs) = some v := by
      simp [mlookup]
    have hf : (("_id", v) :: (from_dict d).attrs).filter (fun kv => kv.1 ≠ "_id") =
        (from_dict d).attrs := by
      rw [List.filter_cons, if_neg (by simp)]
      exact hAnid
    rw [hl, hf, idFromLookup_some hvnull, ← hi]

/-- C9 witness: the round-trip theorem applied to a concrete document with a
date-wrapped field. -/
theorem c9_roundtrip_witness :
    from_dict (to_dict (from_dict
      [("_id", .int 7), ("guild_id", .str "123"), ("expires_at", .dateWrap 1700000000000)])) =
    from_dict
      [("_id", .int 7), ("guild_id", .str "123"), ("expires_at", .dateWrap 1700000000000)] :=
  c9_roundtrip _ (by decide)

end MongoModels

namespace SafeMongo

/-- A Python exception as observed by the wrapper: its class name (what
`type(e).__name__` yields) and its message (`str(e)`). -/
structure PyExc where
  className : String
  msg : String
deriving DecidableEq

/-- Outcome of a single driver-level call: a returned value or a raised
exception. -/
inductive DriverRes (α : Type) where
  | ok (a : α)
  | raiseExc (e : PyExc)

/-- An opaque value produced by the driver (insert result, document, count,
collection handle, ...). -/
inductive DVal where
  | mk (tag : String)
deriving DecidableEq

/-- `SafeMongoDBResult` from `safe_mongodb.py`: success flag, optional data,
optional error message and error type.  (The `timestamp` field is set but
never read by any caller in the sources and is omitted; likewise the data
payload attached to some error results is irrelevant to the claims and
modelled as `none` there.) -/
structure SafeMongoDBResult where
  success : Bool
  data : Option DVal
  error : Option String
  error_type : Option String
deriving DecidableEq

/-- `SafeMongoDBResult.success_result`. -/
def success_result (data : Option DVal) : SafeMongoDBResult :=
  ⟨true, data, none, none⟩

/-- `SafeMongoDBResult.error_result`. -/
def error_result (error : String) (error_type : String) (data : Option DVal) :
    SafeMongoDBResult :=
  ⟨false, data, some error, some error_type⟩

/-- The connection state of a `SafeMongoDBClient` (`self._connected` together
with the client/database handles it implies). -/
structure ClientState where
  connected : Bool
deriving DecidableEq

/-- The environment behaviour of the underlying motor/pymongo driver during
one wrapper operation: the outcome of the i-th `connect()` attempt and the
outcome of the actual collection-level operation call. -/
structure Driver where
  connectAttempt : Nat → DriverRes Unit
  op : DriverRes DVal

/-- `SafeMongoDBClient.connect`: on success the client is connected; every
exception (ConnectionFailure, ServerSelectionTimeoutError, or generic) is
converted to an error result whose `error_type` is the exception class
name. -/
def connect (st : ClientState) (r : DriverRes Unit) :
    SafeMongoDBResult × ClientState :=
  match r with
  | .ok _ => (success_result none, { connected := true })
  | .raiseExc e => (error_result e.msg e.className none, st)

/-- The retry loop of `SafeMongoDBClient._ensure_connected`: up to `fuel`
(source: 3) `connect()` calls; the first success is returned, and exhaustion
surfaces a `ReconnectionFailure` error result. -/
def ensureLoop (drv : Driver) : Nat → Nat → ClientState → SafeMongoDBResult × ClientState
  | _, 0, st =>
    (error_result "Failed to reconnect to MongoDB after multiple attempts"
      "ReconnectionFailure" none, st)
  | attempt, fuel + 1, st =>
    if (connect st (drv.connectAttempt attempt)).1.success then
      connect st (drv.connectAttempt attempt)
    else
      ensureLoop drv (attempt + 1) fuel (connect st (drv.connectAttempt attempt)).2

/-- `SafeMongoDBClient._ensure_connected`: already-connected clients succeed
immediately, otherwise reconnect with at most 3 attempts. -/
def ensure_connected (st : ClientState) (drv : Driver) :
    SafeMongoDBResult × ClientState :=
  if st.connected then (success_result none, st) else ensureLoop drv 0 3 st

/-- `SafeMongoDBClient.get_collection`: ensure connectivity (propagating its
error result unchanged on failure), then hand out the collection. -/
def get_collection (st : ClientState) (drv : Driver) :
    SafeMongoDBResult × ClientState :=
  if (ensure_connected st drv).1.success then
    (success_result (some (DVal.mk "collection")), (ensure_connected st drv).2)
  else ensure_connected st drv

/-- The shared body of every CRUD wrapper in `safe_mongodb.py`
(`insert_one`, `insert_many`, `find_one`, `find_many`, `update_one`,
`update_many`, `delete_one`, `delete_many`, `count_documents`, `aggregate`):
resolve the collection (returning the resolution error unchanged on
failure), run the driver call, wrap a raised exception into an error result
with `error_type = type(e).__name__`. -/
def crudOp (st : ClientState) (drv : Driver) : SafeMongoDBResult × ClientState :=
  if (get_collection st drv).1.success then
    match drv.op with
    | .ok v => (success_result (some v), (get_collection st drv).2)
    | .raiseExc e => (error_result e.msg e.className none, (get_collection st drv).2)
  else get_collection st drv

/-- `SafeMongoDBClient.insert_one` (lines 257-291). -/
def insert_one : ClientState → Driver → SafeMongoDBResult × ClientState := crudOp

/-- `SafeMongoDBClient.insert_many`. -/
def insert_many : ClientState → Driver → SafeMongoDBResult × ClientState := crudOp

/-- `SafeMongoDBClient.find_one`. -/
def find_one : ClientState → Driver → SafeMongoDBResult × ClientState := crudOp

/-- `SafeMongoDBClient.find_many`. -/
def find_many : ClientState → Driver → SafeMongoDBResult × ClientState := crudOp

/-- `SafeMongoDBClient.update_one`. -/
def update_one : ClientState → Driver → SafeMongoDBResult × ClientState := crudOp

/-- `SafeMongoDBClient.update_many`. -/
def update_many : ClientState → Driver → SafeMongoDBResult × ClientState := crudOp

/-- `SafeMongoDBClient.delete_one`. -/
def delete_one : ClientState → Driver → SafeMongoDBResult × ClientState := crudOp

/-- `SafeMongoDBClient.delete_many`. -/
def delete_many : ClientState → Driver → SafeMongoDBResult × ClientState := crudOp

/-- `SafeMongoDBClient.count_documents`. -/
def count_documents : ClientState → Driver → SafeMongoDBResult × ClientState := crudOp

/-- `SafeMongoDBClient.aggregate`. -/
def aggregate : ClientState → Driver → SafeMongoDBResult × ClientState := crudOp

/-- The wrapping contract of one CRUD operation: an exception raised by the
resolved driver call yields a failed result typed with the exception class
name, and a connection that cannot be established yields the failed
`ReconnectionFailure` result — in both cases a `SafeMongoDBResult` is
returned rather than an exception propagated. -/
def opWraps (f : ClientState → Driver → SafeMongoDBResult × ClientState) : Prop :=
  ∀ (st : ClientState) (drv : Driver) (e : PyExc),
    ((ensure_connected st drv).1.success = true → drv.op = .raiseExc e →
      (f st drv).1.success = false ∧ (f st drv).1.error_type = some e.className) ∧
    ((ensure_connected st drv).1.success = false →
      (f st drv).1.success = false ∧
      (f st drv).1.error_type = some "ReconnectionFailure")

theorem ensureLoop_fail (drv : Driver) :
    ∀ (fuel attempt : Nat) (st : ClientState),
      (ensureLoop drv attempt fuel st).1.success = false →
      (ensureLoop drv attempt fuel st).1.error_type = some "ReconnectionFailure" := by
  intro fuel
  induction fuel with
  | zero => intro attempt st _; rfl
  | succ n ih =>
    intro attempt st h
    rw [ensureLoop] at h ⊢
    by_cases hc : (connect st (drv.connectAttempt attempt)).1.success = true
    · rw [if_pos hc] at h
      rw [hc] at h
      exact absurd h (by simp)
    · rw [if_neg hc] at h ⊢
      exact ih (attempt + 1) _ h

theorem ensure_connected_fail (st : ClientState) (drv : Driver)
    (h : (ensure_connected st drv).1.success = false) :
    (ensure_connected st drv).1.error_type = some "ReconnectionFailure" := by
  rw [ensure_connected] at h ⊢
  by_cases hc : st.connected
  · rw [if_pos hc] at h
    exact absurd h (by simp [success_result])
  · rw [if_neg hc] at h ⊢
    exact ensureLoop_fail drv 3 0 st h

theorem get_collection_success (st : ClientState) (drv : Driver) :
    (get_collection st drv).1.success = (ensure_connected st drv).1.success := by
  rw [get_collection]
  by_cases h : (ensure_connected st drv).1.success = true
  · rw [if_pos h, h]
    rfl
  · rw [if_neg h]

theorem crudOp_wraps : opWraps crudOp := by
  intro st drv e
  constructor
  · intro hok hop
    have hcol : (get_collection st drv).1.success = true := by
      rw [get_collection_success, hok]
    rw [crudOp, if_pos hcol, hop]
    exact ⟨rfl, rfl⟩
  · intro hfail
    have hcol : ¬ (get_collection st drv).1.success = true := by
      rw [get_collection_success, hfail]
      simp
    rw [crudOp, if_neg hcol, get_collection,
      if_neg (by rw [hfail]; simp)]
    exact ⟨hfail, ensure_connected_fail st drv hfail⟩

end SafeMongo

namespace SafeMongo

/-- A disconnected client. -/
def stDisconnected : ClientState := ⟨false⟩

/-- A driver whose every connect attempt raises `ConnectionFailure` and whose
operation call would succeed. -/
def drvConnFail : Driver :=
  ⟨fun _ => .raiseExc ⟨"ConnectionFailure", "conn down"⟩, .ok (DVal.mk "res")⟩

/-- C6 counterexample: on a disconnected client whose connect attempts all
raise `ConnectionFailure`, `insert_one` returns a failed result whose
`error_type` is `ReconnectionFailure` — not the class name of the exception
the driver raised, contradicting the claim that the returned `error_type`
always equals the raising exception class name. -/
theorem c6_counterexample :
    (insert_one stDisconnected drvConnFail).1.success = false ∧
    (insert_one stDisconnected drvConnFail).1.error_type = some "ReconnectionFailure" ∧
    ¬ (insert_one stDisconnected drvConnFail).1.error_type = some "ConnectionFailure" := by
  refine ⟨rfl, rfl, ?_⟩
  intro h
  rw [show (insert_one stDisconnected drvConnFail).1.error_type =
      some "ReconnectionFailure" from rfl] at h
  simp at h

/-- C6 (amended): every public CRUD operation of the wrapper — and `connect`
itself — returns a `SafeMongoDBResult` and never propagates a driver
exception; when the driver call of a resolved operation raises, the result
has `success = false` and `error_type` equal to the raising exception class
name; when the connection cannot be (re-)established, the operation fails
with `error_type = "ReconnectionFailure"` (and a single failed `connect`
carries the exception class name). -/
theorem c6_crud_wraps_exceptions :
    opWraps insert_one ∧ opWraps insert_many ∧ opWraps find_one ∧
    opWraps find_many ∧ opWraps update_one ∧ opWraps update_many ∧
    opWraps delete_one ∧ opWraps delete_many ∧ opWraps count_documents ∧
    opWraps aggregate ∧
    (∀ (st : ClientState) (e : PyExc),
      (connect st (.raiseExc e)).1.success = false ∧
      (connect st (.raiseExc e)).1.error_type = some e.className) :=
  ⟨crudOp_wraps, crudOp_wraps, crudOp_wraps, crudOp_wraps, crudOp_wraps,
   crudOp_wraps, crudOp_wraps, crudOp_wraps, crudOp_wraps, crudOp_wraps,
   fun _ _ => ⟨rfl, rfl⟩⟩

/-- C6 witness: the `update_one` component applied on a connected client
whose driver call raises `DuplicateKeyError`. -/
theorem c6_crud_wraps_exceptions_witness :
    (update_one ⟨true⟩ ⟨fun _ => .ok (), .raiseExc ⟨"DuplicateKeyError", "dup"⟩⟩).1.success
      = false ∧
    (update_one ⟨true⟩ ⟨fun _ => .ok (), .raiseExc ⟨"DuplicateKeyError", "dup"⟩⟩).1.error_type
      = some "DuplicateKeyError" :=
  (c6_crud_wraps_exceptions.2.2.2.2.1 ⟨true⟩
    ⟨fun _ => .ok (), .raiseExc ⟨"DuplicateKeyError", "dup"⟩⟩
    ⟨"DuplicateKeyError", "dup"⟩).1 rfl rfl

end SafeMongo

namespace Enhanced

/-- One entry of `PremiumManager.guild_premium_cache` in
`premium_manager_enhanced.py`: status, feature list, optional expiry and the
time the entry was written. -/
structure CacheEntry where
  status : Bool
  features : List String
  expires_at : Option Nat
  updated_at : Nat
deriving DecidableEq

/-- The guild premium cache: a dict from guild id to entry. -/
abbrev Cache := List (Nat × CacheEntry)

/-- Dict lookup in the cache. -/
def cacheLookup (c : Cache) (gid : Nat) : Option CacheEntry :=
  match c with
  | [] => none
  | kv :: rest => if kv.1 = gid then some kv.2 else cacheLookup rest gid

/-- Dict assignment `self.guild_premium_cache[guild_id] = {...}`. -/
def cacheSet (c : Cache) (gid : Nat) (e : CacheEntry) : Cache :=
  if c.any (fun kv => kv.1 = gid) then
    c.map (fun kv => if kv.1 = gid then (gid, e) else kv)
  else
    c ++ [(gid, e)]

/-- The stored `expires_at` field of a `guild_premium` document: Python
`None`/absent, a string `datetime.fromisoformat` rejects, or a valid ISO
timestamp. -/
inductive ExpStr where
  | noneVal
  | invalid
  | iso (t : Nat)
deriving DecidableEq

/-- The read path's parsing of `expires_at`: `fromisoformat` inside
`try/except`, with absent, `None` and unparsable values all leaving
`expires_at = None`. -/
def parseExp : ExpStr → Option Nat
  | .iso t => some t
  | _ => none

/-- Serialization used by the write paths:
`expires_at.isoformat() if expires_at else None`. -/
def expToStr : Option Nat → ExpStr
  | some t => .iso t
  | none => .noneVal

/-- A stored `guild_premium` document.  Only the fields the manager reads or
writes are modelled (`created_at`/`updated_at` are written but never read);
`tier` is `none` when the document was created by a write path that does not
set that field (`_update_guild_premium_status` inserts without it). -/
structure GuildDoc where
  guild_id : Nat
  status : Bool
  tier : Option Nat
  features : List String
  expires_at : ExpStr
deriving DecidableEq

/-- The database adapter as observable by the enhanced manager: absent
(`self.db` is None), raising on every call (outage), or a faithful
`guild_premium` collection. -/
inductive EnhDb where
  | noDb
  | down
  | store (docs : List GuildDoc)
deriving DecidableEq

/-- `find_one("guild_premium", {"guild_id": str(gid)})`: first document for
the guild. -/
def findDoc (docs : List GuildDoc) (gid : Nat) : Option GuildDoc :=
  docs.find? (fun d => d.guild_id = gid)

/-- `update_one` on the first document matching the guild id; a no-op when
nothing matches (no upsert is requested by the manager). -/
def updateFirst (docs : List GuildDoc) (gid : Nat) (f : GuildDoc → GuildDoc) :
    List GuildDoc :=
  match docs with
  | [] => []
  | d :: rest =>
    if d.guild_id = gid then f d :: rest else d :: updateFirst rest gid f

/-- `self.cache_ttl` (300 seconds). -/
def cacheTtl : Nat := 300

/-- The keys of `self.available_features`. -/
def availableFeatures : List String :=
  ["custom_prefix", "extended_logs", "auto_responses", "advanced_analytics",
   "custom_commands", "reaction_roles"]

/-- `self.premium_tiers[tid]["features"]`. -/
def premiumTierFeatures : Nat → List String
  | 1 => ["custom_prefix", "extended_logs"]
  | 2 => ["custom_prefix", "extended_logs", "auto_responses", "advanced_analytics"]
  | 3 => ["custom_prefix", "extended_logs", "auto_responses", "advanced_analytics",
          "custom_commands", "reaction_roles"]
  | _ => []

/-- The keys of `self.premium_tiers`, in iteration order. -/
def premiumTierIds : List Nat := [1, 2, 3]

/-- The store write of `_update_guild_premium_status`: `find_one` then either
`update_one` (`$set` of status/features/expires_at) or `insert_one` of a new
document (which carries no `tier` field). -/
def upsertStatusDoc (docs : List GuildDoc) (gid : Nat) (status : Bool)
    (features : List String) (expires_at : Option Nat) : List GuildDoc :=
  match findDoc docs gid with
  | some _ =>
    updateFirst docs gid (fun d =>
      { d with status := status, features := features,
               expires_at := expToStr expires_at })
  | none =>
    docs ++ [{ guild_id := gid, status := status, tier := none,
               features := features, expires_at := expToStr expires_at }]

/-- `PremiumManager._update_guild_premium_status`: write-through cache update
followed by a best-effort store write whose exceptions are caught
internally. -/
def update_guild_premium_status (c : Cache) (db : EnhDb) (now gid : Nat)
    (status : Bool) (features : List String) (expires_at : Option Nat) :
    Cache × EnhDb :=
  let c2 := cacheSet c gid ⟨status, features, expires_at, now⟩
  match db with
  | .noDb => (c2, db)
  | .down => (c2, db)
  | .store docs =>
    (c2, .store (upsertStatusDoc docs gid status features expires_at))

/-- The database branch of `PremiumManager.is_guild_premium` (cache miss or
stale entry): query the store, lazily downgrade an expired record, cache the
verdict; an exception or an absent adapter yields `False`. -/
def is_guild_premium_db (c : Cache) (db : EnhDb) (now gid : Nat) :
    Bool × Cache × EnhDb :=
  match db with
  | .noDb => (false, c, db)
  | .down => (false, c, db)
  | .store docs =>
    match findDoc docs gid with
    | some doc =>
      match parseExp doc.expires_at with
      | some t =>
        if t < now then
          let r := update_guild_premium_status c db now gid false [] none
          (false, r.1, r.2)
        else
          let r := update_guild_premium_status c db now gid true doc.features (some t)
          (true, r.1, r.2)
      | none =>
        let r := update_guild_premium_status c db now gid true doc.features none
        (true, r.1, r.2)
    | none =>
      let r := update_guild_premium_status c db now gid false [] none
      (false, r.1, r.2)

/-- `PremiumManager.is_guild_premium` (lines 148-208): serve a fresh cache
entry (detecting lazily expired entries), otherwise fall through to the
database branch. -/
def is_guild_premium (c : Cache) (db : EnhDb) (now gid : Nat) :
    Bool × Cache × EnhDb :=
  match cacheLookup c gid with
  | some e =>
    if now - e.updated_at ≤ cacheTtl then
      match e.expires_at with
      | some t =>
        if t < now then
          let r := update_guild_premium_status c db now gid false [] none
          (false, r.1, r.2)
        else (e.status, c, db)
      | none => (e.status, c, db)
    else is_guild_premium_db c db now gid
  | none => is_guild_premium_db c db now gid

/-- Database branch of `get_guild_premium_features`: return the stored
feature list when the stored record has a truthy `status`, else `[]`;
errors and absent adapters yield `[]`. -/
def get_guild_premium_features_db (db : EnhDb) (gid : Nat) : List String :=
  match db with
  | .noDb => []
  | .down => []
  | .store docs =>
    match findDoc docs gid with
    | some doc => if doc.status then doc.features else []
    | none => []

/-- `PremiumManager.get_guild_premium_features` (lines 322-353): a fresh
cache entry with premium status serves its feature list, otherwise the
database is consulted. -/
def get_guild_premium_features (c : Cache) (db : EnhDb) (now gid : Nat) :
    List String :=
  match cacheLookup c gid with
  | some e =>
    if decide (now - e.updated_at ≤ cacheTtl) && e.status then e.features
    else get_guild_premium_features_db db gid
  | none => get_guild_premium_features_db db gid

/-- `PremiumManager.has_feature` called with a guild id and no user id
(lines 388-422): unknown feature names are rejected, then membership in the
guild's feature list decides. -/
def has_feature (fid : String) (c : Cache) (db : EnhDb) (now gid : Nat) : Bool :=
  if availableFeatures.any (fun f => f = fid) then
    (get_guild_premium_features c db now gid).any (fun f => f = fid)
  else false

/-- Whether a tier's entire feature list is contained in `features` —
`all(feature in features for feature in tier_info["features"])`. -/
def coversTier (tid : Nat) (features : List String) : Bool :=
  (premiumTierFeatures tid).all (fun f => features.any (fun g => g = f))

/-- The loop of `get_guild_premium_tier`: the highest tier id whose full
feature list is contained in the feature list, accumulated over the tier
dict in iteration order. -/
def tierFold (features : List String) : Nat :=
  premiumTierIds.foldl
    (fun highest tid =>
      if coversTier tid features then Nat.max highest tid else highest) 0

/-- `PremiumManager.get_guild_premium_tier` (lines 272-295): non-premium
guilds report 0; otherwise the tier is computed from the feature list
alone. -/
def get_guild_premium_tier (c : Cache) (db : EnhDb) (now gid : Nat) : Nat :=
  let r := is_guild_premium c db now gid
  if r.1 then get_guild_premium_features r.2.1 r.2.2 now gid |> tierFold
  else 0

/-- `PremiumManager.add_guild_premium` (lines 424-495): validate the tier,
compute the expiry, write the store row (update or insert, including the
`tier` field), then write-through the cache; a failing or absent adapter
returns `False` before the cache is touched. -/
def add_guild_premium (c : Cache) (db : EnhDb) (now gid tier duration_days : Nat) :
    Bool × Cache × EnhDb :=
  if premiumTierIds.any (fun t => t = tier) then
    let ea := now + duration_days * 86400
    let features := premiumTierFeatures tier
    match db with
    | .noDb => (false, c, db)
    | .down => (false, c, db)
    | .store docs =>
      let docs2 :=
        match findDoc docs gid with
        | some _ =>
          updateFirst docs gid (fun d =>
            { d with status := true, tier := some tier, features := features,
                     expires_at := .iso ea })
        | none =>
          docs ++ [{ guild_id := gid, status := true, tier := some tier,
                     features := features, expires_at := .iso ea }]
      let r := update_guild_premium_status c (.store docs2) now gid true features (some ea)
      (true, r.1, r.2)
  else (false, c, db)

/-- `PremiumManager.remove_guild_premium` (lines 570-609): unconditionally
`update_one` the row to non-premium (a no-op when absent), then write-through
the cache — which inserts a fresh status-`False` row when none exists — and
report `True`; only a failing or absent adapter reports `False`. -/
def remove_guild_premium (c : Cache) (db : EnhDb) (now gid : Nat) :
    Bool × Cache × EnhDb :=
  match db with
  | .noDb => (false, c, db)
  | .down => (false, c, db)
  | .store docs =>
    let docs2 := updateFirst docs gid (fun d =>
      { d with status := false, features := [], expires_at := .noneVal })
    let r := update_guild_premium_status c (.store docs2) now gid false [] none
    (true, r.1, r.2)

end Enhanced

namespace Enhanced

theorem cacheLookup_cacheSet (c : Cache) (gid : Nat) (e : CacheEntry) :
    cacheLookup (cacheSet c gid e) gid = some e := by
  rw [cacheSet]
  by_cases h : c.any (fun kv => kv.1 = gid)
  · rw [if_pos h]
    induction c with
    | nil => simp at h
    | cons kv rest ih =>
      by_cases hk : kv.1 = gid
      · simp [cacheLookup, hk]
      · simp only [List.any_cons, Bool.or_eq_true, decide_eq_true_eq] at h
        rcases h with h | h
        · exact absurd h hk
        · simp only [List.map_cons, if_neg hk, cacheLookup, hk, if_false]
          exact ih h
  · rw [if_neg h]
    induction c with
    | nil => simp [cacheLookup]
    | cons kv rest ih =>
      simp only [List.any_cons, Bool.or_eq_true, decide_eq_true_eq, not_or] at h
      simp only [List.cons_append, cacheLookup, if_neg h.1]
      exact ih (by simpa using h.2)

theorem is_guild_premium_db_false (c : Cache) (db : EnhDb) (now gid : Nat)
    (hd : ∀ docs doc, db = .store docs → findDoc docs gid = some doc →
      ∃ t, parseExp doc.expires_at = some t ∧ t < now) :
    (is_guild_premium_db c db now gid).1 = false := by
  cases db with
  | noDb => rfl
  | down => rfl
  | store docs =>
    cases hfd : findDoc docs gid with
    | none => simp [is_guild_premium_db, hfd]
    | some doc =>
      rcases hd docs doc rfl hfd with ⟨t, hpt, hlt⟩
      simp [is_guild_premium_db, hfd, hpt, hlt]

end Enhanced

/-- C1: whenever the guild's record — wherever the read path can find it
(fresh cache entry, or store document reached on cache miss/staleness) —
carries an `expires_at` strictly in the past, `is_guild_premium` returns
`False` and `get_guild_premium_tier` returns 0, regardless of the stored
`tier`/`status` fields and of whether any sweep has run (the cache and store
states are arbitrary apart from the expiry premise). -/
theorem c1_expired_negative :
    ∀ (c : Enhanced.Cache) (db : Enhanced.EnhDb) (now gid : Nat),
      (∀ e, Enhanced.cacheLookup c gid = some e →
        ∃ t, e.expires_at = some t ∧ t < now) →
      (∀ docs doc, db = Enhanced.EnhDb.store docs →
        Enhanced.findDoc docs gid = some doc →
        ∃ t, Enhanced.parseExp doc.expires_at = some t ∧ t < now) →
      (Enhanced.is_guild_premium c db now gid).1 = false ∧
      Enhanced.get_guild_premium_tier c db now gid = 0 := by
  intro c db now gid hc hd
  have hprem : (Enhanced.is_guild_premium c db now gid).1 = false := by
    cases hcl : Enhanced.cacheLookup c gid with
    | none =>
      simp only [Enhanced.is_guild_premium, hcl]
      exact Enhanced.is_guild_premium_db_false c db now gid hd
    | some e =>
      rcases hc e hcl with ⟨t, het, hlt⟩
      by_cases hfresh : now - e.updated_at ≤ Enhanced.cacheTtl
      · simp [Enhanced.is_guild_premium, hcl, hfresh, het, hlt]
      · simp only [Enhanced.is_guild_premium, hcl, if_neg hfresh]
        exact Enhanced.is_guild_premium_db_false c db now gid hd
  refine ⟨hprem, ?_⟩
  simp [Enhanced.get_guild_premium_tier, hprem]

/-- C1 witness: a guild whose cache entry and store document both expired at
time 50, read at time 100 with stored tier 3 and status `True`. -/
theorem c1_expired_negative_witness :
    (Enhanced.is_guild_premium [(5, ⟨true, ["custom_prefix"], some 50, 90⟩)]
      (Enhanced.EnhDb.store [⟨5, true, some 3, ["custom_prefix"], .iso 50⟩]) 100 5).1
      = false ∧
    Enhanced.get_guild_premium_tier [(5, ⟨true, ["custom_prefix"], some 50, 90⟩)]
      (Enhanced.EnhDb.store [⟨5, true, some 3, ["custom_prefix"], .iso 50⟩]) 100 5 = 0 :=
  c1_expired_negative _ _ 100 5
    (fun e he => by
      have h1 : (⟨true, ["custom_prefix"], some 50, 90⟩ : Enhanced.CacheEntry) = e :=
        Option.some.inj he
      subst h1
      exact ⟨50, rfl, by decide⟩)
    (fun docs doc hdb hfd => by
      injection hdb with h
      subst h
      have h2 : (⟨5, true, some 3, ["custom_prefix"], .iso 50⟩ : Enhanced.GuildDoc) = doc :=
        Option.some.inj hfd
      subst h2
      exact ⟨50, rfl, by decide⟩)

/-- C2 counterexample: with the store unreachable (every call raises) but a
fresh positive cache entry present, `is_guild_premium` returns `True` — the
claim that it returns `False` for every subject under an outage fails. -/
theorem c2_counterexample :
    (Enhanced.is_guild_premium [(5, ⟨true, ["custom_prefix"], none, 1000⟩)]
      Enhanced.EnhDb.down 1000 5).1 = true ∧
    ¬ (Enhanced.is_guild_premium [(5, ⟨true, ["custom_prefix"], none, 1000⟩)]
      Enhanced.EnhDb.down 1000 5).1 = false := by decide

/-- C7 counterexample: `remove_guild_premium` of the enhanced manager on a
guild with no stored record returns `True` (the claim says `False`) and its
write-through cache update inserts a fresh non-premium row, so the store no
longer contains no row for that subject. -/
theorem c7_counterexample :
    (Enhanced.remove_guild_premium [] (Enhanced.EnhDb.store []) 100 7).1 = true ∧
    ¬ (Enhanced.remove_guild_premium [] (Enhanced.EnhDb.store []) 100 7).1 = false ∧
    (Enhanced.remove_guild_premium [] (Enhanced.EnhDb.store []) 100 7).2.2 =
      Enhanced.EnhDb.store [⟨7, false, none, [], Enhanced.ExpStr.noneVal⟩] := by decide

namespace Enhanced

theorem add2_cache (c : Cache) (docs : List GuildDoc) (now gid : Nat) :
    (add_guild_premium c (.store docs) now gid 2 30).2.1 =
      cacheSet c gid ⟨true, premiumTierFeatures 2, some (now + 30 * 86400), now⟩ := by
  cases hfd : findDoc docs gid <;>
    simp [add_guild_premium, hfd, update_guild_premium_status, premiumTierIds]

theorem add_success_store (c : Cache) (db : EnhDb) (now gid : Nat)
    (h : (add_guild_premium c db now gid 2 30).1 = true) :
    ∃ docs, db = .store docs := by
  cases db with
  | noDb => simp [add_guild_premium] at h
  | down => simp [add_guild_premium] at h
  | store docs => exact ⟨docs, rfl⟩

theorem fresh_entry_reads_true (c : Cache) (db2 : EnhDb) (now gid : Nat)
    (feats : List String) (texp : Nat) (hexp : ¬ texp < now) :
    (is_guild_premium (cacheSet c gid ⟨true, feats, some texp, now⟩) db2 now gid).1
      = true := by
  have hl := cacheLookup_cacheSet c gid (⟨true, feats, some texp, now⟩ : CacheEntry)
  have hfresh : now - now ≤ cacheTtl := by simp [cacheTtl]
  simp [is_guild_premium, hl, hfresh, hexp]

theorem fresh_entry_features (c : Cache) (db2 : EnhDb) (now gid : Nat)
    (feats : List String) (ea : Option Nat) :
    get_guild_premium_features (cacheSet c gid ⟨true, feats, ea, now⟩) db2 now gid
      = feats := by
  have hl := cacheLookup_cacheSet c gid (⟨true, feats, ea, now⟩ : CacheEntry)
  have hfresh : now - now ≤ cacheTtl := by simp [cacheTtl]
  simp [get_guild_premium_features, hl, hfresh]

end Enhanced

/-- C3: after a successful `add_guild_premium(S, tier=2, duration_days=30)`
at time `now`, the cache entry for S has been synchronously repopulated with
status `True`, the full tier-2 feature set and the new expiry; an immediate
`is_guild_premium(S)` returns `True` against any database state whatsoever
(so the verdict uses only the cache), and `has_feature(f, guild_id=S)` is
`True` for every feature of tier 2's feature set, again for any database
state. -/
theorem c3_grant_write_through :
    ∀ (c : Enhanced.Cache) (db : Enhanced.EnhDb) (now gid : Nat),
      (Enhanced.add_guild_premium c db now gid 2 30).1 = true →
      Enhanced.cacheLookup (Enhanced.add_guild_premium c db now gid 2 30).2.1 gid =
        some ⟨true, Enhanced.premiumTierFeatures 2, some (now + 30 * 86400), now⟩ ∧
      (∀ db2, (Enhanced.is_guild_premium
        (Enhanced.add_guild_premium c db now gid 2 30).2.1 db2 now gid).1 = true) ∧
      (∀ f ∈ Enhanced.premiumTierFeatures 2, ∀ db2,
        Enhanced.has_feature f
          (Enhanced.add_guild_premium c db now gid 2 30).2.1 db2 now gid = true) := by
  intro c db now gid hsucc
  rcases Enhanced.add_success_store c db now gid hsucc with ⟨docs, rfl⟩
  have hcache := Enhanced.add2_cache c docs now gid
  rw [hcache]
  refine ⟨Enhanced.cacheLookup_cacheSet c gid _, ?_, ?_⟩
  · intro db2
    exact Enhanced.fresh_entry_reads_true c db2 now gid _ _ (by omega)
  · intro f hf db2
    have hav : Enhanced.availableFeatures.any (fun g => g = f) = true := by
      fin_cases hf <;> decide
    simp only [Enhanced.has_feature, if_pos hav]
    rw [Enhanced.fresh_entry_features]
    fin_cases hf <;> decide

/-- C3 witness: the grant applied on an empty cache and empty store at time
1000 for guild 7. -/
theorem c3_grant_write_through_witness :
    Enhanced.cacheLookup (Enhanced.add_guild_premium [] (.store []) 1000 7 2 30).2.1 7 =
      some ⟨true, Enhanced.premiumTierFeatures 2, some (1000 + 30 * 86400), 1000⟩ ∧
    (∀ db2, (Enhanced.is_guild_premium
      (Enhanced.add_guild_premium [] (.store []) 1000 7 2 30).2.1 db2 1000 7).1 = true) ∧
    (∀ f ∈ Enhanced.premiumTierFeatures 2, ∀ db2,
      Enhanced.has_feature f
        (Enhanced.add_guild_premium [] (.store []) 1000 7 2 30).2.1 db2 1000 7 = true) :=
  c3_grant_write_through [] (.store []) 1000 7 (by decide)

namespace PremiumFeatureAccess

/-- `FeatureAccessLevel.FREE`. -/
def FREE : Nat := 0

/-- The guild premium cache of the feature-access `PremiumManager`: dict from
guild id to the `level` field of the cached document (`none` models a cached
document without a `level` key). -/
abbrev FaCache := List (Nat × Option Nat)

/-- `self.cache_last_updated`: dict from guild id to write time. -/
abbrev FaTimes := List (Nat × Nat)

/-- Dict lookup in the level cache. -/
def faLookup (c : FaCache) (gid : Nat) : Option (Option Nat) :=
  match c with
  | [] => none
  | kv :: rest => if kv.1 = gid then some kv.2 else faLookup rest gid

/-- `self.cache_last_updated.get(guild_id, datetime.min)` — the epoch floor
models `datetime.min`. -/
def faLookupTime (ts : FaTimes) (gid : Nat) : Nat :=
  match ts with
  | [] => 0
  | kv :: rest => if kv.1 = gid then kv.2 else faLookupTime rest gid

/-- Dict assignment into the level cache. -/
def faSet (c : FaCache) (gid : Nat) (lv : Option Nat) : FaCache :=
  if c.any (fun kv => kv.1 = gid) then
    c.map (fun kv => if kv.1 = gid then (gid, lv) else kv)
  else c ++ [(gid, lv)]

/-- Dict assignment into the timestamp map. -/
def faSetTime (ts : FaTimes) (gid : Nat) (t : Nat) : FaTimes :=
  if ts.any (fun kv => kv.1 = gid) then
    ts.map (fun kv => if kv.1 = gid then (gid, t) else kv)
  else ts ++ [(gid, t)]

/-- The `premium_guilds` store as the safe client serves it to this manager:
every call fails (`result.success = False`), or documents keyed by guild id
carrying an optional `level` field. -/
inductive FaDb where
  | ok (docs : List (Nat × Option Nat))
  | fail
deriving DecidableEq

/-- `self.cache_ttl` of the feature-access manager (300 seconds). -/
def cacheTtlFa : Nat := 300

/-- The store branch of `get_guild_premium_level`: a successful `find_one`
with data is cached and served; an error result or an absent document
defaults to FREE. -/
def get_guild_premium_level_db (cache : FaCache) (times : FaTimes) (db : FaDb)
    (now gid : Nat) : Nat × FaCache × FaTimes :=
  match db with
  | .fail => (FREE, cache, times)
  | .ok docs =>
    match docs.find? (fun d => d.1 = gid) with
    | some d => (d.2.getD FREE, faSet cache gid d.2, faSetTime times gid now)
    | none => (FREE, cache, times)

/-- `PremiumManager.get_guild_premium_level` (`premium_feature_access.py`
lines 270-299): a cache entry younger than the TTL serves its `level`
(default FREE); otherwise the store branch decides. -/
def get_guild_premium_level (cache : FaCache) (times : FaTimes) (db : FaDb)
    (now gid : Nat) : Nat × FaCache × FaTimes :=
  match faLookup cache gid with
  | some lv =>
    if now - faLookupTime times gid < cacheTtlFa then ((lv.getD FREE), cache, times)
    else get_guild_premium_level_db cache times db now gid
  | none => get_guild_premium_level_db cache times db now gid

/-- `PremiumManager.has_feature_access` (lines 301-322): unknown features are
denied; otherwise the guild's level is compared against the feature's
required level. -/
def has_feature_access (reg : List PremiumFeature) (cache : FaCache)
    (times : FaTimes) (db : FaDb) (now gid : Nat) (feature_name : String) :
    Bool × FaCache × FaTimes :=
  match get_feature reg feature_name with
  | none => (false, cache, times)
  | some feature =>
    let r := get_guild_premium_level cache times db now gid
    (decide (feature.required_level ≤ r.1), r.2.1, r.2.2)

end PremiumFeatureAccess

/-- C2 (amended): under a store outage (every store call fails) the managers
fail closed whenever the verdict requires a store read — that is, whenever
the subject has no fresh cache entry: the enhanced `is_guild_premium`
returns `False`, and `has_feature_access` returns `False` for every feature
requiring a non-zero tier; both return normally instead of raising.  (A
still-fresh positive cache entry may keep serving its cached verdict during
the outage, which is what the unamended claim missed.) -/
theorem c2_fail_closed_outage :
    (∀ (c : Enhanced.Cache) (now gid : Nat),
      (∀ e, Enhanced.cacheLookup c gid = some e →
        Enhanced.cacheTtl < now - e.updated_at) →
      (Enhanced.is_guild_premium c Enhanced.EnhDb.down now gid).1 = false) ∧
    (∀ (reg : List PremiumFeatureAccess.PremiumFeature)
        (fc : PremiumFeatureAccess.FaCache) (ft : PremiumFeatureAccess.FaTimes)
        (now gid : Nat) (fname : String),
      (∀ lv, PremiumFeatureAccess.faLookup fc gid = some lv →
        ¬ now - PremiumFeatureAccess.faLookupTime ft gid <
          PremiumFeatureAccess.cacheTtlFa) →
      (∀ f, PremiumFeatureAccess.get_feature reg fname = some f →
        1 ≤ f.required_level) →
      (PremiumFeatureAccess.has_feature_access reg fc ft
        PremiumFeatureAccess.FaDb.fail now gid fname).1 = false) := by
  constructor
  · intro c now gid hstale
    cases hcl : Enhanced.cacheLookup c gid with
    | none => simp [Enhanced.is_guild_premium, hcl, Enhanced.is_guild_premium_db]
    | some e =>
      have hs := hstale e hcl
      simp only [Enhanced.is_guild_premium, hcl, if_neg (by omega :
        ¬ now - e.updated_at ≤ Enhanced.cacheTtl)]
      simp [Enhanced.is_guild_premium_db]
  · intro reg fc ft now gid fname hstale hreq
    cases hf : PremiumFeatureAccess.get_feature reg fname with
    | none => simp [PremiumFeatureAccess.has_feature_access, hf]
    | some f =>
      have h1 := hreq f hf
      have hlev : (PremiumFeatureAccess.get_guild_premium_level fc ft
          PremiumFeatureAccess.FaDb.fail now gid).1 = 0 := by
        cases hfl : PremiumFeatureAccess.faLookup fc gid with
        | none =>
          simp [PremiumFeatureAccess.get_guild_premium_level, hfl,
            PremiumFeatureAccess.get_guild_premium_level_db,
            PremiumFeatureAccess.FREE]
        | some lv =>
          have hs := hstale lv hfl
          simp [PremiumFeatureAccess.get_guild_premium_level, hfl, if_neg hs,
            PremiumFeatureAccess.get_guild_premium_level_db,
            PremiumFeatureAccess.FREE]
      have h2 : ¬ f.required_level ≤
          (PremiumFeatureAccess.get_guild_premium_level fc ft
            PremiumFeatureAccess.FaDb.fail now gid).1 := by
        rw [hlev]
        omega
      simp [PremiumFeatureAccess.has_feature_access, hf, h2]

/-- C2 witness: an empty cache under outage for both managers. -/
theorem c2_fail_closed_outage_witness :
    (Enhanced.is_guild_premium [] Enhanced.EnhDb.down 0 1).1 = false ∧
    (PremiumFeatureAccess.has_feature_access
      [⟨"advanced_logging", "d", 1, "Logging"⟩] [] []
      PremiumFeatureAccess.FaDb.fail 0 1 "advanced_logging").1 = false :=
  ⟨c2_fail_closed_outage.1 [] 0 1
      (fun e he => by simp [Enhanced.cacheLookup] at he),
   c2_fail_closed_outage.2 [⟨"advanced_logging", "d", 1, "Logging"⟩] [] [] 0 1
      "advanced_logging"
      (fun lv hl => by simp [PremiumFeatureAccess.faLookup] at hl)
      (fun f hf => by
        have h1 : (⟨"advanced_logging", "d", 1, "Logging"⟩ :
            PremiumFeatureAccess.PremiumFeature) = f := Option.some.inj hf
        subst h1
        decide)⟩

namespace Enhanced

/-- The tier computation as the claim describes it: the maximum tier id
whose entire defined feature list is contained in the given feature list,
and 0 when no tier's full feature set is covered. -/
def specMaxCoveredTier (features : List String) : Nat :=
  (premiumTierIds.filter (fun tid => coversTier tid features)).foldr Nat.max 0

theorem tierFold_eq_spec (features : List String) :
    tierFold features = specMaxCoveredTier features := by
  cases h1 : coversTier 1 features <;> cases h2 : coversTier 2 features <;>
    cases h3 : coversTier 3 features <;>
    simp [tierFold, specMaxCoveredTier, premiumTierIds, h1, h2, h3]

/-- Agreement of two stored documents on every field the read paths consult:
everything except the `tier` field. -/
def sameModTier (d1 d2 : GuildDoc) : Prop :=
  d1.guild_id = d2.guild_id ∧ d1.status = d2.status ∧
  d1.features = d2.features ∧ d1.expires_at = d2.expires_at

/-- Pointwise `sameModTier` between two stores. -/
def storesModTier (docs1 docs2 : List GuildDoc) : Prop :=
  List.Forall₂ sameModTier docs1 docs2

theorem storesModTier_append {a b : List GuildDoc} (h : storesModTier a b)
    {d1 d2 : GuildDoc} (hd : sameModTier d1 d2) :
    storesModTier (a ++ [d1]) (b ++ [d2]) := by
  induction h with
  | nil => exact List.Forall₂.cons hd List.Forall₂.nil
  | cons hh _ ih => exact List.Forall₂.cons hh ih

theorem findDoc_modTier {docs1 docs2 : List GuildDoc} (h : storesModTier docs1 docs2)
    (gid : Nat) :
    (findDoc docs1 gid = none ∧ findDoc docs2 gid = none) ∨
    (∃ d1 d2, findDoc docs1 gid = some d1 ∧ findDoc docs2 gid = some d2 ∧
      sameModTier d1 d2) := by
  induction h with
  | nil => exact Or.inl ⟨rfl, rfl⟩
  | cons hh ht ih =>
    rename_i a b l1 l2
    by_cases hga : a.guild_id = gid
    · have hgb : b.guild_id = gid := hh.1 ▸ hga
      refine Or.inr ⟨a, b, ?_, ?_, hh⟩
      · simp [findDoc, List.find?_cons_of_pos, hga]
      · simp [findDoc, List.find?_cons_of_pos, hgb]
    · have hgb : ¬ b.guild_id = gid := fun hb => hga (hh.1 ▸ hb)
      have e1 : findDoc (a :: l1) gid = findDoc l1 gid := by
        simp [findDoc, List.find?_cons_of_neg, hga]
      have e2 : findDoc (b :: l2) gid = findDoc l2 gid := by
        simp [findDoc, List.find?_cons_of_neg, hgb]
      rw [e1, e2]
      exact ih

theorem updateFirst_modTier {docs1 docs2 : List GuildDoc}
    (h : storesModTier docs1 docs2) (gid : Nat) (f : GuildDoc → GuildDoc)
    (hf : ∀ d1 d2, sameModTier d1 d2 → sameModTier (f d1) (f d2)) :
    storesModTier (updateFirst docs1 gid f) (updateFirst docs2 gid f) := by
  induction h with
  | nil => exact List.Forall₂.nil
  | cons hh ht ih =>
    rename_i a b l1 l2
    by_cases hga : a.guild_id = gid
    · have hgb : b.guild_id = gid := hh.1 ▸ hga
      rw [updateFirst, updateFirst, if_pos hga, if_pos hgb]
      exact List.Forall₂.cons (hf a b hh) ht
    · have hgb : ¬ b.guild_id = gid := fun hb => hga (hh.1 ▸ hb)
      rw [updateFirst, updateFirst, if_neg hga, if_neg hgb]
      exact List.Forall₂.cons hh ih

theorem upsertStatusDoc_modTier {docs1 docs2 : List GuildDoc}
    (h : storesModTier docs1 docs2) (gid : Nat) (status : Bool)
    (features : List String) (ea : Option Nat) :
    storesModTier (upsertStatusDoc docs1 gid status features ea)
      (upsertStatusDoc docs2 gid status features ea) := by
  rcases findDoc_modTier h gid with ⟨h1, h2⟩ | ⟨d1, d2, h1, h2, _⟩
  · rw [upsertStatusDoc, upsertStatusDoc, h1, h2]
    exact storesModTier_append h ⟨rfl, rfl, rfl, rfl⟩
  · rw [upsertStatusDoc, upsertStatusDoc, h1, h2]
    exact updateFirst_modTier h gid _
      (fun e1 e2 he => ⟨he.1, rfl, rfl, rfl⟩)

theorem features_db_modTier {docs1 docs2 : List GuildDoc}
    (h : storesModTier docs1 docs2) (gid : Nat) :
    get_guild_premium_features_db (.store docs1) gid =
      get_guild_premium_features_db (.store docs2) gid := by
  rcases findDoc_modTier h gid with ⟨h1, h2⟩ | ⟨d1, d2, h1, h2, hd⟩
  · simp [get_guild_premium_features_db, h1, h2]
  · rcases hd with ⟨_, hst, hfe, _⟩
    simp [get_guild_premium_features_db, h1, h2, hst, hfe]

theorem features_modTier (c : Cache) {docs1 docs2 : List GuildDoc}
    (h : storesModTier docs1 docs2) (now gid : Nat) :
    get_guild_premium_features c (.store docs1) now gid =
      get_guild_premium_features c (.store docs2) now gid := by
  cases hcl : cacheLookup c gid with
  | none =>
    simp only [get_guild_premium_features, hcl]
    exact features_db_modTier h gid
  | some e =>
    simp only [get_guild_premium_features, hcl]
    by_cases hfe : (decide (now - e.updated_at ≤ cacheTtl) && e.status) = true
    · rw [if_pos hfe, if_pos hfe]
    · rw [if_neg hfe, if_neg hfe]
      exact features_db_modTier h gid

theorem is_db_modTier_fst (c : Cache) {docs1 docs2 : List GuildDoc}
    (h : storesModTier docs1 docs2) (now gid : Nat) :
    (is_guild_premium_db c (.store docs1) now gid).1 =
      (is_guild_premium_db c (.store docs2) now gid).1 := by
  rcases findDoc_modTier h gid with ⟨h1, h2⟩ | ⟨d1, d2, h1, h2, hd⟩
  · simp [is_guild_premium_db, h1, h2]
  · rcases hd with ⟨_, hst, hfe, hex⟩
    simp only [is_guild_premium_db, h1, h2, hex]
    cases hp : parseExp d2.expires_at with
    | none => simp
    | some t => by_cases hlt : t < now <;> simp [hlt]

theorem is_db_modTier_cache (c : Cache) {docs1 docs2 : List GuildDoc}
    (h : storesModTier docs1 docs2) (now gid : Nat) :
    (is_guild_premium_db c (.store docs1) now gid).2.1 =
      (is_guild_premium_db c (.store docs2) now gid).2.1 := by
  rcases findDoc_modTier h gid with ⟨h1, h2⟩ | ⟨d1, d2, h1, h2, hd⟩
  · simp [is_guild_premium_db, h1, h2, update_guild_premium_status]
  · rcases hd with ⟨_, hst, hfe, hex⟩
    simp only [is_guild_premium_db, h1, h2, hex, hfe, update_guild_premium_status]
    cases hp : parseExp d2.expires_at with
    | none => simp
    | some t => by_cases hlt : t < now <;> simp [hlt]

theorem is_db_modTier_store (c : Cache) {docs1 docs2 : List GuildDoc}
    (h : storesModTier docs1 docs2) (now gid : Nat) :
    ∃ e1 e2, (is_guild_premium_db c (.store docs1) now gid).2.2 = .store e1 ∧
      (is_guild_premium_db c (.store docs2) now gid).2.2 = .store e2 ∧
      storesModTier e1 e2 := by
  rcases findDoc_modTier h gid with ⟨h1, h2⟩ | ⟨d1, d2, h1, h2, hd⟩
  · simp only [is_guild_premium_db, h1, h2, update_guild_premium_status]
    exact ⟨_, _, rfl, rfl, upsertStatusDoc_modTier h gid false [] none⟩
  · rcases hd with ⟨_, hst, hfe, hex⟩
    simp only [is_guild_premium_db, h1, h2, hex, hfe, update_guild_premium_status]
    cases hp : parseExp d2.expires_at with
    | none =>
      exact ⟨_, _, rfl, rfl, upsertStatusDoc_modTier h gid true d2.features none⟩
    | some t =>
      by_cases hlt : t < now
      · simp only [if_pos hlt]
        exact ⟨_, _, rfl, rfl, upsertStatusDoc_modTier h gid false [] none⟩
      · simp only [if_neg hlt]
        exact ⟨_, _, rfl, rfl, upsertStatusDoc_modTier h gid true d2.features (some t)⟩

theorem is_modTier_fst (c : Cache) {docs1 docs2 : List GuildDoc}
    (h : storesModTier docs1 docs2) (now gid : Nat) :
    (is_guild_premium c (.store docs1) now gid).1 =
      (is_guild_premium c (.store docs2) now gid).1 := by
  cases hcl : cacheLookup c gid with
  | none =>
    simp only [is_guild_premium, hcl]
    exact is_db_modTier_fst c h now gid
  | some e =>
    simp only [is_guild_premium, hcl]
    by_cases hfresh : now - e.updated_at ≤ cacheTtl
    · rw [if_pos hfresh, if_pos hfresh]
      cases hee : e.expires_at with
      | none => rfl
      | some t => by_cases hlt : t < now <;> simp [hlt]
    · rw [if_neg hfresh, if_neg hfresh]
      exact is_db_modTier_fst c h now gid

theorem is_modTier_cache (c : Cache) {docs1 docs2 : List GuildDoc}
    (h : storesModTier docs1 docs2) (now gid : Nat) :
    (is_guild_premium c (.store docs1) now gid).2.1 =
      (is_guild_premium c (.store docs2) now gid).2.1 := by
  cases hcl : cacheLookup c gid with
  | none =>
    simp only [is_guild_premium, hcl]
    exact is_db_modTier_cache c h now gid
  | some e =>
    simp only [is_guild_premium, hcl]
    by_cases hfresh : now - e.updated_at ≤ cacheTtl
    · rw [if_pos hfresh, if_pos hfresh]
      cases hee : e.expires_at with
      | none => rfl
      | some t => by_cases hlt : t < now <;> simp [hlt, update_guild_premium_status]
    · rw [if_neg hfresh, if_neg hfresh]
      exact is_db_modTier_cache c h now gid

theorem is_modTier_store (c : Cache) {docs1 docs2 : List GuildDoc}
    (h : storesModTier docs1 docs2) (now gid : Nat) :
    ∃ e1 e2, (is_guild_premium c (.store docs1) now gid).2.2 = .store e1 ∧
      (is_guild_premium c (.store docs2) now gid).2.2 = .store e2 ∧
      storesModTier e1 e2 := by
  cases hcl : cacheLookup c gid with
  | none =>
    simp only [is_guild_premium, hcl]
    exact is_db_modTier_store c h now gid
  | some e =>
    simp only [is_guild_premium, hcl]
    by_cases hfresh : now - e.updated_at ≤ cacheTtl
    · rw [if_pos hfresh, if_pos hfresh]
      cases hee : e.expires_at with
      | none => exact ⟨_, _, rfl, rfl, h⟩
      | some t =>
        by_cases hlt : t < now
        · simp only [if_pos hlt, update_guild_premium_status]
          exact ⟨_, _, rfl, rfl, upsertStatusDoc_modTier h gid false [] none⟩
        · simp only [if_neg hlt]
          exact ⟨_, _, rfl, rfl, h⟩
    · rw [if_neg hfresh, if_neg hfresh]
      exact is_db_modTier_store c h now gid

end Enhanced

/-- C10: the tier reported by the enhanced `get_guild_premium_tier` is never
read from the stored `tier` field: for every premium subject it equals the
maximum tier id whose entire defined feature list is contained in the
subject's stored feature list (0 when not premium or when no tier's full
feature set is covered), and two stores that agree on everything except the
`tier` field always yield the same reported tier. -/
theorem c10_tier_from_features :
    (∀ (c : Enhanced.Cache) (db : Enhanced.EnhDb) (now gid : Nat),
      Enhanced.get_guild_premium_tier c db now gid =
        if (Enhanced.is_guild_premium c db now gid).1 then
          Enhanced.specMaxCoveredTier
            (Enhanced.get_guild_premium_features
              (Enhanced.is_guild_premium c db now gid).2.1
              (Enhanced.is_guild_premium c db now gid).2.2 now gid)
        else 0) ∧
    (∀ (c : Enhanced.Cache) (docs1 docs2 : List Enhanced.GuildDoc) (now gid : Nat),
      Enhanced.storesModTier docs1 docs2 →
      Enhanced.get_guild_premium_tier c (.store docs1) now gid =
        Enhanced.get_guild_premium_tier c (.store docs2) now gid) := by
  constructor
  · intro c db now gid
    simp only [Enhanced.get_guild_premium_tier]
    cases h : (Enhanced.is_guild_premium c db now gid).1 <;>
      simp [h, Enhanced.tierFold_eq_spec]
  · intro c docs1 docs2 now gid h
    have hf := Enhanced.is_modTier_fst c h now gid
    have hcache := Enhanced.is_modTier_cache c h now gid
    rcases Enhanced.is_modTier_store c h now gid with ⟨e1, e2, he1, he2, hrel⟩
    simp only [Enhanced.get_guild_premium_tier]
    rw [hf, hcache, he1, he2]
    by_cases hb : (Enhanced.is_guild_premium c (.store docs2) now gid).1 = true
    · rw [if_pos hb, if_pos hb,
        Enhanced.features_modTier
          (Enhanced.is_guild_premium c (.store docs2) now gid).2.1 hrel now gid]
    · rw [if_neg hb, if_neg hb]

/-- C10 witness: two single-document stores differing only in the stored
`tier` field (3 versus absent) report the same tier. -/
theorem c10_tier_from_features_witness :
    Enhanced.get_guild_premium_tier []
      (.store [⟨5, true, some 3, ["custom_prefix", "extended_logs"], .noneVal⟩]) 100 5 =
    Enhanced.get_guild_premium_tier []
      (.store [⟨5, true, none, ["custom_prefix", "extended_logs"], .noneVal⟩]) 100 5 :=
  c10_tier_from_features.2 [] _ _ 100 5
    (List.Forall₂.cons ⟨rfl, rfl, rfl, rfl⟩ List.Forall₂.nil)

namespace PModels

/-- The typed guild premium record consumed by `premium_manager.py`.
Modelled from the spec: the class itself (`premium_models.PremiumGuild`) is
not among the sources; the spec's EntitlementSubject carries the external
`subject_id`, an ordinal `tier` (NONE upward), an `enabled_features` set and
a nullable `expires_at`. -/
structure PremiumGuild where
  guild_id : Nat
  tier : Nat
  enabled_features : List String
  expires_at : Option Nat
deriving DecidableEq

/-- The typed user premium record.  Modelled from the spec, as
`PremiumGuild` above (users carry no `enabled_features` that the sweep
touches). -/
structure PremiumUser where
  user_id : Nat
  tier : Nat
  expires_at : Option Nat
deriving DecidableEq

/-- Modelled from the spec: `PremiumTier.NONE.value` — tiers are ordinal
with the bottom tier NONE, "0=free upward". -/
def tierNone : Nat := 0

/-- The persistent store behind the typed models: one row per subject. -/
structure PMStore where
  guilds : List PremiumGuild
  users : List PremiumUser
deriving DecidableEq

/-- The in-memory state of `premium_manager.PremiumManager`: the
`premium_guilds`/`premium_users` id sets and the guild `feature_cache`. -/
structure PMState where
  premium_guilds : List Nat
  premium_users : List Nat
  feature_cache : List (Nat × List String)
deriving DecidableEq

/-- Modelled from the spec: `PremiumGuild.get_by_guild_id` — `find_one` on
the store keyed by external id. -/
def get_by_guild_id (gs : List PremiumGuild) (gid : Nat) : Option PremiumGuild :=
  gs.find? (fun g => g.guild_id = gid)

/-- Modelled from the spec: `PremiumUser.get_by_user_id`. -/
def get_by_user_id (us : List PremiumUser) (uid : Nat) : Option PremiumUser :=
  us.find? (fun u => u.user_id = uid)

/-- Whether a guild row matches the sweep query
`{"expires_at": {"$lt": now}}`: the field must exist and be before `now`
(`$lt` does not match null/absent fields). -/
def guildExpiredB (now : Nat) (g : PremiumGuild) : Bool :=
  match g.expires_at with
  | some t => decide (t < now)
  | none => false

/-- Whether a user row matches the sweep query. -/
def userExpiredB (now : Nat) (u : PremiumUser) : Bool :=
  match u.expires_at with
  | some t => decide (t < now)
  | none => false

/-- Modelled from the spec: `PremiumGuild.find(db, {"expires_at": {"$lt":
now}})` — the matching rows in store order. -/
def findExpiredGuilds (gs : List PremiumGuild) (now : Nat) : List PremiumGuild :=
  gs.filter (guildExpiredB now)

/-- Modelled from the spec: `PremiumUser.find(db, {"expires_at": {"$lt":
now}})`. -/
def findExpiredUsers (us : List PremiumUser) (now : Nat) : List PremiumUser :=
  us.filter (userExpiredB now)

/-- Modelled from the spec: `guild.save(db_client)` — an update-by-identity
write-back of the row keyed by the subject id ("one row per subject keyed by
external id"); always succeeds in this model. -/
def saveGuild (gs : List PremiumGuild) (g : PremiumGuild) : List PremiumGuild :=
  gs.map (fun h => if h.guild_id = g.guild_id then g else h)

/-- Modelled from the spec: `user.save(db_client)`. -/
def saveUser (us : List PremiumUser) (u : PremiumUser) : List PremiumUser :=
  us.map (fun v => if v.user_id = u.user_id then u else v)

/-- `PremiumManager.remove_guild_premium` (`premium_manager.py` lines
294-334): a guild with no stored record returns `False` untouched; otherwise
the tier, expiry and features are cleared, the row saved, and the caches
dropped. -/
def remove_guild_premium (st : PMStore) (ms : PMState) (gid : Nat) :
    Bool × PMStore × PMState :=
  match get_by_guild_id st.guilds gid with
  | none => (false, st, ms)
  | some guild =>
    let g2 : PremiumGuild :=
      { guild with tier := tierNone, expires_at := none, enabled_features := [] }
    (true,
     { st with guilds := saveGuild st.guilds g2 },
     { ms with premium_guilds := ms.premium_guilds.filter (fun x => x ≠ gid),
               feature_cache := ms.feature_cache.filter (fun kv => kv.1 ≠ gid) })

/-- `PremiumManager.remove_user_premium` (lines 336-370): the user analogue
(no feature cache). -/
def remove_user_premium (st : PMStore) (ms : PMState) (uid : Nat) :
    Bool × PMStore × PMState :=
  match get_by_user_id st.users uid with
  | none => (false, st, ms)
  | some user =>
    let u2 : PremiumUser := { user with tier := tierNone, expires_at := none }
    (true,
     { st with users := saveUser st.users u2 },
     { ms with premium_users := ms.premium_users.filter (fun x => x ≠ uid) })

/-- One iteration of the guild loop of `check_and_remove_expired`: an
expired row with non-NONE tier is downgraded (tier NONE, features cleared),
saved, evicted from both caches and counted; rows already at tier NONE are
skipped. -/
def sweepGuildStep (acc : List PremiumGuild × PMState × Nat) (g : PremiumGuild) :
    List PremiumGuild × PMState × Nat :=
  if g.tier ≠ tierNone then
    (saveGuild acc.1 ({ g with tier := tierNone, enabled_features := [] }),
     { acc.2.1 with
        premium_guilds := acc.2.1.premium_guilds.filter (fun x => x ≠ g.guild_id),
        feature_cache := acc.2.1.feature_cache.filter (fun kv => kv.1 ≠ g.guild_id) },
     acc.2.2 + 1)
  else acc

/-- One iteration of the user loop of `check_and_remove_expired`. -/
def sweepUserStep (acc : List PremiumUser × PMState × Nat) (u : PremiumUser) :
    List PremiumUser × PMState × Nat :=
  if u.tier ≠ tierNone then
    (saveUser acc.1 ({ u with tier := tierNone }),
     { acc.2.1 with
        premium_users := acc.2.1.premium_users.filter (fun x => x ≠ u.user_id) },
     acc.2.2 + 1)
  else acc

/-- `PremiumManager.check_and_remove_expired` (`premium_manager.py` lines
502-546): sweep the expired guilds, then the expired users, returning the
transition counts. -/
def check_and_remove_expired (st : PMStore) (ms : PMState) (now : Nat) :
    PMStore × PMState × Nat × Nat :=
  let gr := (findExpiredGuilds st.guilds now).foldl sweepGuildStep (st.guilds, ms, 0)
  let ur := (findExpiredUsers st.users now).foldl sweepUserStep (st.users, gr.2.1, 0)
  (⟨gr.1, ur.1⟩, ur.2.1, gr.2.2, ur.2.2)

end PModels

namespace PModels

theorem saveGuild_ids (gs : List PremiumGuild) (g : PremiumGuild) :
    (saveGuild gs g).map (fun h => h.guild_id) = gs.map (fun h => h.guild_id) := by
  induction gs with
  | nil => rfl
  | cons h t ih =>
    by_cases hc : h.guild_id = g.guild_id <;>
      simp only [saveGuild, List.map_cons, if_pos, if_neg, hc] at ih ⊢ <;>
      simp [hc, ih]

theorem mem_saveGuild_of_ne {gs : List PremiumGuild} {h : PremiumGuild}
    (hm : h ∈ gs) (g : PremiumGuild) (hne : h.guild_id ≠ g.guild_id) :
    h ∈ saveGuild gs g := by
  have := List.mem_map_of_mem (fun x => if x.guild_id = g.guild_id then g else x) hm
  simp only [if_neg hne] at this
  exact this

theorem mem_saveGuild_self {gs : List PremiumGuild} {g : PremiumGuild}
    (hid : g.guild_id ∈ gs.map (fun h => h.guild_id)) :
    g ∈ saveGuild gs g := by
  induction gs with
  | nil => simp at hid
  | cons h t ih =>
    simp only [List.map_cons, List.mem_cons] at hid
    by_cases hc : h.guild_id = g.guild_id
    · simp [saveGuild, hc]
    · rcases hid with hid | hid
      · exact absurd hid.symm hc
      · simp only [saveGuild, List.map_cons, if_neg hc, List.mem_cons]
        exact Or.inr (ih hid)

theorem guildFold_count (L : List PremiumGuild) :
    ∀ (gs : List PremiumGuild) (ms : PMState) (n : Nat),
      (L.foldl sweepGuildStep (gs, ms, n)).2.2 =
        n + (L.filter (fun g => decide (g.tier ≠ tierNone))).length := by
  induction L with
  | nil => intro gs ms n; simp
  | cons g t ih =>
    intro gs ms n
    rw [List.foldl_cons, List.filter_cons]
    by_cases hg : g.tier ≠ tierNone
    · rw [sweepGuildStep, if_pos hg]
      rw [ih]
      simp [hg]
      omega
    · rw [sweepGuildStep, if_neg hg]
      rw [ih]
      simp [hg]

theorem guildFold_ids (L : List PremiumGuild) :
    ∀ (gs : List PremiumGuild) (ms : PMState) (n : Nat),
      (L.foldl sweepGuildStep (gs, ms, n)).1.map (fun h => h.guild_id) =
        gs.map (fun h => h.guild_id) := by
  induction L with
  | nil => intro gs ms n; rfl
  | cons g t ih =>
    intro gs ms n
    rw [List.foldl_cons]
    by_cases hg : g.tier ≠ tierNone
    · rw [sweepGuildStep, if_pos hg, ih, saveGuild_ids]
    · rw [sweepGuildStep, if_neg hg, ih]

theorem guildFold_untouched (L : List PremiumGuild) :
    ∀ (gs : List PremiumGuild) (ms : PMState) (n : Nat) (h : PremiumGuild),
      h ∈ gs → (∀ g ∈ L, g.guild_id ≠ h.guild_id) →
      h ∈ (L.foldl sweepGuildStep (gs, ms, n)).1 := by
  induction L with
  | nil => intro gs ms n h hm _; exact hm
  | cons g t ih =>
    intro gs ms n h hm hne
    rw [List.foldl_cons]
    by_cases hg : g.tier ≠ tierNone
    · rw [sweepGuildStep, if_pos hg]
      refine ih _ _ _ h ?_ (fun x hx => hne x (List.mem_cons_of_mem _ hx))
      exact mem_saveGuild_of_ne hm _ (fun he => hne g (List.mem_cons_self _ _) he.symm)
    · rw [sweepGuildStep, if_neg hg]
      exact ih _ _ _ h hm (fun x hx => hne x (List.mem_cons_of_mem _ hx))

theorem guildFold_pg_mono (L : List PremiumGuild) :
    ∀ (gs : List PremiumGuild) (ms : PMState) (n : Nat) (x : Nat),
      x ∉ ms.premium_guilds →
      x ∉ (L.foldl sweepGuildStep (gs, ms, n)).2.1.premium_guilds := by
  induction L with
  | nil => intro gs ms n x hx; exact hx
  | cons g t ih =>
    intro gs ms n x hx
    rw [List.foldl_cons]
    by_cases hg : g.tier ≠ tierNone
    · rw [sweepGuildStep, if_pos hg]
      refine ih _ _ _ x ?_
      intro hmem
      exact hx (List.mem_of_mem_filter hmem)
    · rw [sweepGuildStep, if_neg hg]
      exact ih _ _ _ x hx

theorem guildFold_fc_mono (L : List PremiumGuild) :
    ∀ (gs : List PremiumGuild) (ms : PMState) (n : Nat) (x : Nat),
      (∀ kv ∈ ms.feature_cache, kv.1 ≠ x) →
      ∀ kv ∈ (L.foldl sweepGuildStep (gs, ms, n)).2.1.feature_cache, kv.1 ≠ x := by
  induction L with
  | nil => intro gs ms n x hx; exact hx
  | cons g t ih =>
    intro gs ms n x hx
    rw [List.foldl_cons]
    by_cases hg : g.tier ≠ tierNone
    · rw [sweepGuildStep, if_pos hg]
      refine ih _ _ _ x ?_
      intro kv hkv
      exact hx kv (List.mem_of_mem_filter hkv)
    · rw [sweepGuildStep, if_neg hg]
      exact ih _ _ _ x hx

theorem guildFold_pu (L : List PremiumGuild) :
    ∀ (gs : List PremiumGuild) (ms : PMState) (n : Nat),
      (L.foldl sweepGuildStep (gs, ms, n)).2.1.premium_users = ms.premium_users := by
  induction L with
  | nil => intro gs ms n; rfl
  | cons g t ih =>
    intro gs ms n
    rw [List.foldl_cons]
    by_cases hg : g.tier ≠ tierNone
    · rw [sweepGuildStep, if_pos hg, ih]
    · rw [sweepGuildStep, if_neg hg, ih]

theorem guildFold_processed (L : List PremiumGuild) :
    ∀ (gs : List PremiumGuild) (ms : PMState) (n : Nat),
      (L.map (fun h => h.guild_id)).Nodup →
      (∀ g ∈ L, g.guild_id ∈ gs.map (fun h => h.guild_id)) →
      ∀ g ∈ L, g.tier ≠ tierNone →
        ({ g with tier := tierNone, enabled_features := [] } ∈
          (L.foldl sweepGuildStep (gs, ms, n)).1) ∧
        g.guild_id ∉ (L.foldl sweepGuildStep (gs, ms, n)).2.1.premium_guilds ∧
        (∀ kv ∈ (L.foldl sweepGuildStep (gs, ms, n)).2.1.feature_cache,
          kv.1 ≠ g.guild_id) := by
  induction L with
  | nil => intro gs ms n _ _ g hg; exact absurd hg (List.not_mem_nil g)
  | cons a t ih =>
    intro gs ms n hnd hin g hg htier
    rw [List.map_cons, List.nodup_cons] at hnd
    rcases List.mem_cons.mp hg with rfl | hgt
    · -- the head is the processed guild
      rw [List.foldl_cons, sweepGuildStep, if_pos htier]
      have hg2id : ({ g with tier := tierNone, enabled_features := [] } :
          PremiumGuild).guild_id = g.guild_id := rfl
      refine ⟨?_, ?_, ?_⟩
      · refine guildFold_untouched t _ _ _ _ ?_ ?_
        · exact mem_saveGuild_self (by
            rw [hg2id]
            exact hin g (List.mem_cons_self _ _))
        · intro x hx hxe
          exact hnd.1 (hxe ▸ List.mem_map_of_mem (fun h => h.guild_id) hx)
      · refine guildFold_pg_mono t _ _ _ _ ?_
        intro hmem
        have := List.of_mem_filter hmem
        simp at this
      · refine guildFold_fc_mono t _ _ _ _ ?_
        intro kv hkv
        have := List.of_mem_filter hkv
        simpa using this
    · -- the processed guild is further down the list
      rw [List.foldl_cons]
      by_cases ha : a.tier ≠ tierNone
      · rw [sweepGuildStep, if_pos ha]
        refine ih _ _ _ hnd.2 ?_ g hgt htier
        intro x hx
        rw [saveGuild_ids]
        exact hin x (List.mem_cons_of_mem _ hx)
      · rw [sweepGuildStep, if_neg ha]
        exact ih _ _ _ hnd.2 (fun x hx => hin x (List.mem_cons_of_mem _ hx)) g hgt htier

end PModels

namespace PModels

theorem saveUser_ids (us : List PremiumUser) (u : PremiumUser) :
    (saveUser us u).map (fun v => v.user_id) = us.map (fun v => v.user_id) := by
  induction us with
  | nil => rfl
  | cons h t ih =>
    by_cases hc : h.user_id = u.user_id <;>
      simp only [saveUser, List.map_cons, if_pos, if_neg, hc] at ih ⊢ <;>
      simp [hc, ih]

theorem mem_saveUser_of_ne {us : List PremiumUser} {v : PremiumUser}
    (hm : v ∈ us) (u : PremiumUser) (hne : v.user_id ≠ u.user_id) :
    v ∈ saveUser us u := by
  have := List.mem_map_of_mem (fun x => if x.user_id = u.user_id then u else x) hm
  simp only [if_neg hne] at this
  exact this

theorem mem_saveUser_self {us : List PremiumUser} {u : PremiumUser}
    (hid : u.user_id ∈ us.map (fun v => v.user_id)) :
    u ∈ saveUser us u := by
  induction us with
  | nil => simp at hid
  | cons h t ih =>
    simp only [List.map_cons, List.mem_cons] at hid
    by_cases hc : h.user_id = u.user_id
    · simp [saveUser, hc]
    · rcases hid with hid | hid
      · exact absurd hid.symm hc
      · simp only [saveUser, List.map_cons, if_neg hc, List.mem_cons]
        exact Or.inr (ih hid)

theorem userFold_count (L : List PremiumUser) :
    ∀ (us : List PremiumUser) (ms : PMState) (n : Nat),
      (L.foldl sweepUserStep (us, ms, n)).2.2 =
        n + (L.filter (fun u => decide (u.tier ≠ tierNone))).length := by
  induction L with
  | nil => intro us ms n; simp
  | cons u t ih =>
    intro us ms n
    rw [List.foldl_cons, List.filter_cons]
    by_cases hg : u.tier ≠ tierNone
    · rw [sweepUserStep, if_pos hg, ih]
      simp [hg]
      omega
    · rw [sweepUserStep, if_neg hg, ih]
      simp [hg]

theorem userFold_ids (L : List PremiumUser) :
    ∀ (us : List PremiumUser) (ms : PMState) (n : Nat),
      (L.foldl sweepUserStep (us, ms, n)).1.map (fun v => v.user_id) =
        us.map (fun v => v.user_id) := by
  induction L with
  | nil => intro us ms n; rfl
  | cons u t ih =>
    intro us ms n
    rw [List.foldl_cons]
    by_cases hg : u.tier ≠ tierNone
    · rw [sweepUserStep, if_pos hg, ih, saveUser_ids]
    · rw [sweepUserStep, if_neg hg, ih]

theorem userFold_untouched (L : List PremiumUser) :
    ∀ (us : List PremiumUser) (ms : PMState) (n : Nat) (v : PremiumUser),
      v ∈ us → (∀ u ∈ L, u.user_id ≠ v.user_id) →
      v ∈ (L.foldl sweepUserStep (us, ms, n)).1 := by
  induction L with
  | nil => intro us ms n v hm _; exact hm
  | cons u t ih =>
    intro us ms n v hm hne
    rw [List.foldl_cons]
    by_cases hg : u.tier ≠ tierNone
    · rw [sweepUserStep, if_pos hg]
      refine ih _ _ _ v ?_ (fun x hx => hne x (List.mem_cons_of_mem _ hx))
      exact mem_saveUser_of_ne hm _ (fun he => hne u (List.mem_cons_self _ _) he.symm)
    · rw [sweepUserStep, if_neg hg]
      exact ih _ _ _ v hm (fun x hx => hne x (List.mem_cons_of_mem _ hx))

theorem userFold_pu_mono (L : List PremiumUser) :
    ∀ (us : List PremiumUser) (ms : PMState) (n : Nat) (x : Nat),
      x ∉ ms.premium_users →
      x ∉ (L.foldl sweepUserStep (us, ms, n)).2.1.premium_users := by
  induction L with
  | nil => intro us ms n x hx; exact hx
  | cons u t ih =>
    intro us ms n x hx
    rw [List.foldl_cons]
    by_cases hg : u.tier ≠ tierNone
    · rw [sweepUserStep, if_pos hg]
      refine ih _ _ _ x ?_
      intro hmem
      exact hx (List.mem_of_mem_filter hmem)
    · rw [sweepUserStep, if_neg hg]
      exact ih _ _ _ x hx

theorem userFold_keeps_guild_state (L : List PremiumUser) :
    ∀ (us : List PremiumUser) (ms : PMState) (n : Nat),
      (L.foldl sweepUserStep (us, ms, n)).2.1.premium_guilds = ms.premium_guilds ∧
      (L.foldl sweepUserStep (us, ms, n)).2.1.feature_cache = ms.feature_cache := by
  induction L with
  | nil => intro us ms n; exact ⟨rfl, rfl⟩
  | cons u t ih =>
    intro us ms n
    rw [List.foldl_cons]
    by_cases hg : u.tier ≠ tierNone
    · rw [sweepUserStep, if_pos hg]
      exact ih _ _ _
    · rw [sweepUserStep, if_neg hg]
      exact ih _ _ _

theorem userFold_processed (L : List PremiumUser) :
    ∀ (us : List PremiumUser) (ms : PMState) (n : Nat),
      (L.map (fun v => v.user_id)).Nodup →
      (∀ u ∈ L, u.user_id ∈ us.map (fun v => v.user_id)) →
      ∀ u ∈ L, u.tier ≠ tierNone →
        ({ u with tier := tierNone } ∈ (L.foldl sweepUserStep (us, ms, n)).1) ∧
        u.user_id ∉ (L.foldl sweepUserStep (us, ms, n)).2.1.premium_users := by
  induction L with
  | nil => intro us ms n _ _ u hu; exact absurd hu (List.not_mem_nil u)
  | cons a t ih =>
    intro us ms n hnd hin u hu htier
    rw [List.map_cons, List.nodup_cons] at hnd
    rcases List.mem_cons.mp hu with rfl | hut
    · rw [List.foldl_cons, sweepUserStep, if_pos htier]
      refine ⟨?_, ?_⟩
      · refine userFold_untouched t _ _ _ _ ?_ ?_
        · exact mem_saveUser_self (hin u (List.mem_cons_self _ _))
        · intro x hx hxe
          exact hnd.1 (hxe ▸ List.mem_map_of_mem (fun v => v.user_id) hx)
      · refine userFold_pu_mono t _ _ _ _ ?_
        intro hmem
        have := List.of_mem_filter hmem
        simp at this
    · rw [List.foldl_cons]
      by_cases ha : a.tier ≠ tierNone
      · rw [sweepUserStep, if_pos ha]
        refine ih _ _ _ hnd.2 ?_ u hut htier
        intro x hx
        rw [saveUser_ids]
        exact hin x (List.mem_cons_of_mem _ hx)
      · rw [sweepUserStep, if_neg ha]
        exact ih _ _ _ hnd.2 (fun x hx => hin x (List.mem_cons_of_mem _ hx)) u hut htier

end PModels

/-- C5: one call to the sweep (`check_and_remove_expired`) transitions every
stored subject whose `expires_at` is in the past and whose tier is not NONE
to tier NONE (clearing `enabled_features` for guilds), removes each such
subject from the in-memory premium caches, and returns exactly the pair of
transition counts; every subject the expiry query does not match is left
unchanged in the store. -/
theorem c5_sweep_correct :
    ∀ (st : PModels.PMStore) (ms : PModels.PMState) (now : Nat),
      (st.guilds.map (fun g => g.guild_id)).Nodup →
      (st.users.map (fun u => u.user_id)).Nodup →
      ((PModels.check_and_remove_expired st ms now).2.2.1 =
        ((PModels.findExpiredGuilds st.guilds now).filter
          (fun g => decide (g.tier ≠ PModels.tierNone))).length) ∧
      ((PModels.check_and_remove_expired st ms now).2.2.2 =
        ((PModels.findExpiredUsers st.users now).filter
          (fun u => decide (u.tier ≠ PModels.tierNone))).length) ∧
      (∀ g ∈ st.guilds, PModels.guildExpiredB now g = true →
        g.tier ≠ PModels.tierNone →
        ({ g with tier := PModels.tierNone, enabled_features := [] } ∈
          (PModels.check_and_remove_expired st ms now).1.guilds) ∧
        g.guild_id ∉ (PModels.check_and_remove_expired st ms now).2.1.premium_guilds ∧
        (∀ kv ∈ (PModels.check_and_remove_expired st ms now).2.1.feature_cache,
          kv.1 ≠ g.guild_id)) ∧
      (∀ g ∈ st.guilds, PModels.guildExpiredB now g = false →
        g ∈ (PModels.check_and_remove_expired st ms now).1.guilds) ∧
      (∀ u ∈ st.users, PModels.userExpiredB now u = true →
        u.tier ≠ PModels.tierNone →
        ({ u with tier := PModels.tierNone } ∈
          (PModels.check_and_remove_expired st ms now).1.users) ∧
        u.user_id ∉ (PModels.check_and_remove_expired st ms now).2.1.premium_users) ∧
      (∀ u ∈ st.users, PModels.userExpiredB now u = false →
        u ∈ (PModels.check_and_remove_expired st ms now).1.users) := by
  intro st ms now hndg hndu
  have hndLg : ((PModels.findExpiredGuilds st.guilds now).map
      (fun g => g.guild_id)).Nodup :=
    hndg.sublist (List.Sublist.map _ (List.filter_sublist _))
  have hndLu : ((PModels.findExpiredUsers st.users now).map
      (fun u => u.user_id)).Nodup :=
    hndu.sublist (List.Sublist.map _ (List.filter_sublist _))
  have hinLg : ∀ x ∈ PModels.findExpiredGuilds st.guilds now,
      x.guild_id ∈ st.guilds.map (fun g => g.guild_id) :=
    fun x hx => List.mem_map_of_mem _ (List.mem_of_mem_filter hx)
  have hinLu : ∀ x ∈ PModels.findExpiredUsers st.users now,
      x.user_id ∈ st.users.map (fun u => u.user_id) :=
    fun x hx => List.mem_map_of_mem _ (List.mem_of_mem_filter hx)
  have hkeep := PModels.userFold_keeps_guild_state
    (PModels.findExpiredUsers st.users now) st.users
    ((PModels.findExpiredGuilds st.guilds now).foldl PModels.sweepGuildStep
      (st.guilds, ms, 0)).2.1 0
  refine ⟨?_, ?_, ?_, ?_, ?_, ?_⟩
  · exact (PModels.guildFold_count _ st.guilds ms 0).trans (Nat.zero_add _)
  · exact (PModels.userFold_count _ st.users _ 0).trans (Nat.zero_add _)
  · intro g hg hexp htier
    have hgL : g ∈ PModels.findExpiredGuilds st.guilds now :=
      List.mem_filter.mpr ⟨hg, hexp⟩
    rcases PModels.guildFold_processed _ st.guilds ms 0 hndLg hinLg g hgL htier with
      ⟨hstore, hpg, hfc⟩
    refine ⟨hstore, ?_, ?_⟩
    · intro hmem
      exact hpg (hkeep.1 ▸ hmem)
    · intro kv hkv
      exact hfc kv (hkeep.2 ▸ hkv)
  · intro g hg hexp
    refine PModels.guildFold_untouched _ st.guilds ms 0 g hg ?_
    intro x hx hxe
    have hxg : x = g := List.inj_on_of_nodup_map hndg
      (List.mem_of_mem_filter hx) hg hxe
    rw [hxg] at hx
    rw [PModels.findExpiredGuilds, List.mem_filter] at hx
    rw [hx.2] at hexp
    exact absurd hexp (by simp)
  · intro u hu hexp htier
    have huL : u ∈ PModels.findExpiredUsers st.users now :=
      List.mem_filter.mpr ⟨hu, hexp⟩
    exact PModels.userFold_processed _ st.users _ 0 hndLu hinLu u huL htier
  · intro u hu hexp
    refine PModels.userFold_untouched _ st.users _ 0 u hu ?_
    intro x hx hxe
    have hxu : x = u := List.inj_on_of_nodup_map hndu
      (List.mem_of_mem_filter hx) hu hxe
    rw [hxu] at hx
    rw [PModels.findExpiredUsers, List.mem_filter] at hx
    rw [hx.2] at hexp
    exact absurd hexp (by simp)

/-- C5 witness: a two-guild, one-user store — one guild expired at tier 2,
one guild with a future expiry — swept at time 100. -/
theorem c5_sweep_correct_witness :
    ((PModels.check_and_remove_expired
        ⟨[⟨1, 2, ["custom_commands"], some 50⟩, ⟨2, 1, ["a"], some 900⟩],
          [⟨9, 1, some 40⟩]⟩
        ⟨[1, 2], [9], [(1, ["custom_commands"])]⟩ 100).2.2.1 =
      ((PModels.findExpiredGuilds
        [⟨1, 2, ["custom_commands"], some 50⟩, ⟨2, 1, ["a"], some 900⟩] 100).filter
          (fun g => decide (g.tier ≠ PModels.tierNone))).length) ∧
    ((PModels.check_and_remove_expired
        ⟨[⟨1, 2, ["custom_commands"], some 50⟩, ⟨2, 1, ["a"], some 900⟩],
          [⟨9, 1, some 40⟩]⟩
        ⟨[1, 2], [9], [(1, ["custom_commands"])]⟩ 100).2.2.2 =
      ((PModels.findExpiredUsers [⟨9, 1, some 40⟩] 100).filter
          (fun u => decide (u.tier ≠ PModels.tierNone))).length) ∧
    (∀ g ∈ [(⟨1, 2, ["custom_commands"], some 50⟩ : PModels.PremiumGuild),
        ⟨2, 1, ["a"], some 900⟩], PModels.guildExpiredB 100 g = true →
      g.tier ≠ PModels.tierNone →
      ({ g with tier := PModels.tierNone, enabled_features := [] } ∈
        (PModels.check_and_remove_expired
          ⟨[⟨1, 2, ["custom_commands"], some 50⟩, ⟨2, 1, ["a"], some 900⟩],
            [⟨9, 1, some 40⟩]⟩
          ⟨[1, 2], [9], [(1, ["custom_commands"])]⟩ 100).1.guilds) ∧
      g.guild_id ∉ (PModels.check_and_remove_expired
          ⟨[⟨1, 2, ["custom_commands"], some 50⟩, ⟨2, 1, ["a"], some 900⟩],
            [⟨9, 1, some 40⟩]⟩
          ⟨[1, 2], [9], [(1, ["custom_commands"])]⟩ 100).2.1.premium_guilds ∧
      (∀ kv ∈ (PModels.check_and_remove_expired
          ⟨[⟨1, 2, ["custom_commands"], some 50⟩, ⟨2, 1, ["a"], some 900⟩],
            [⟨9, 1, some 40⟩]⟩
          ⟨[1, 2], [9], [(1, ["custom_commands"])]⟩ 100).2.1.feature_cache,
        kv.1 ≠ g.guild_id)) ∧
    (∀ g ∈ [(⟨1, 2, ["custom_commands"], some 50⟩ : PModels.PremiumGuild),
        ⟨2, 1, ["a"], some 900⟩], PModels.guildExpiredB 100 g = false →
      g ∈ (PModels.check_and_remove_expired
          ⟨[⟨1, 2, ["custom_commands"], some 50⟩, ⟨2, 1, ["a"], some 900⟩],
            [⟨9, 1, some 40⟩]⟩
          ⟨[1, 2], [9], [(1, ["custom_commands"])]⟩ 100).1.guilds) ∧
    (∀ u ∈ [(⟨9, 1, some 40⟩ : PModels.PremiumUser)],
      PModels.userExpiredB 100 u = true → u.tier ≠ PModels.tierNone →
      ({ u with tier := PModels.tierNone } ∈
        (PModels.check_and_remove_expired
          ⟨[⟨1, 2, ["custom_commands"], some 50⟩, ⟨2, 1, ["a"], some 900⟩],
            [⟨9, 1, some 40⟩]⟩
          ⟨[1, 2], [9], [(1, ["custom_commands"])]⟩ 100).1.users) ∧
      u.user_id ∉ (PModels.check_and_remove_expired
          ⟨[⟨1, 2, ["custom_commands"], some 50⟩, ⟨2, 1, ["a"], some 900⟩],
            [⟨9, 1, some 40⟩]⟩
          ⟨[1, 2], [9], [(1, ["custom_commands"])]⟩ 100).2.1.premium_users) ∧
    (∀ u ∈ [(⟨9, 1, some 40⟩ : PModels.PremiumUser)],
      PModels.userExpiredB 100 u = false →
      u ∈ (PModels.check_and_remove_expired
          ⟨[⟨1, 2, ["custom_commands"], some 50⟩, ⟨2, 1, ["a"], some 900⟩],
            [⟨9, 1, some 40⟩]⟩
          ⟨[1, 2], [9], [(1, ["custom_commands"])]⟩ 100).1.users) :=
  c5_sweep_correct
    ⟨[⟨1, 2, ["custom_commands"], some 50⟩, ⟨2, 1, ["a"], some 900⟩],
      [⟨9, 1, some 40⟩]⟩
    ⟨[1, 2], [9], [(1, ["custom_commands"])]⟩ 100 (by decide) (by decide)

namespace Enhanced

theorem updateFirst_no_match {docs : List GuildDoc} {gid : Nat}
    (h : findDoc docs gid = none) (f : GuildDoc → GuildDoc) :
    updateFirst docs gid f = docs := by
  induction docs with
  | nil => rfl
  | cons d rest ih =>
    by_cases hd : d.guild_id = gid
    · exfalso
      rw [findDoc, List.find?_cons_of_pos _ (by simpa using hd)] at h
      exact Option.noConfusion h
    · rw [findDoc, List.find?_cons_of_neg _ (by simpa using hd)] at h
      rw [updateFirst, if_neg hd, ih h]

end Enhanced

/-- C7 (amended): in the typed-model manager (`premium_manager.py`), revoking
a subject with no stored record returns `False` without raising and leaves
both the store and the manager state unchanged — for guilds and users alike;
the enhanced manager's `remove_guild_premium`, by contrast, returns `True`
on a missing record (when the store write succeeds) and its write-through
update inserts a status-`False` row for the subject into the store. -/
theorem c7_revoke_missing :
    (∀ (st : PModels.PMStore) (ms : PModels.PMState) (gid : Nat),
      PModels.get_by_guild_id st.guilds gid = none →
      (PModels.remove_guild_premium st ms gid).1 = false ∧
      (PModels.remove_guild_premium st ms gid).2.1 = st ∧
      (PModels.remove_guild_premium st ms gid).2.2 = ms) ∧
    (∀ (st : PModels.PMStore) (ms : PModels.PMState) (uid : Nat),
      PModels.get_by_user_id st.users uid = none →
      (PModels.remove_user_premium st ms uid).1 = false ∧
      (PModels.remove_user_premium st ms uid).2.1 = st ∧
      (PModels.remove_user_premium st ms uid).2.2 = ms) ∧
    (∀ (c : Enhanced.Cache) (docs : List Enhanced.GuildDoc) (now gid : Nat),
      Enhanced.findDoc docs gid = none →
      (Enhanced.remove_guild_premium c (.store docs) now gid).1 = true ∧
      (Enhanced.remove_guild_premium c (.store docs) now gid).2.2 =
        .store (docs ++ [⟨gid, false, none, [], .noneVal⟩])) := by
  refine ⟨?_, ?_, ?_⟩
  · intro st ms gid h
    refine ⟨?_, ?_, ?_⟩ <;> simp [PModels.remove_guild_premium, h]
  · intro st ms uid h
    refine ⟨?_, ?_, ?_⟩ <;> simp [PModels.remove_user_premium, h]
  · intro c docs now gid h
    refine ⟨rfl, ?_⟩
    have hupd := Enhanced.updateFirst_no_match h
      (fun d => { d with status := false, features := ([] : List String), expires_at := Enhanced.ExpStr.noneVal })
    simp only [Enhanced.remove_guild_premium, Enhanced.update_guild_premium_status,
      hupd, Enhanced.upsertStatusDoc, h, Enhanced.expToStr]

/-- C7 witness: revoking guild 124 and user 124 on an empty typed-model
store, and the enhanced revoke on an empty store. -/
theorem c7_revoke_missing_witness :
    ((PModels.remove_guild_premium ⟨[], []⟩ ⟨[], [], []⟩ 124).1 = false ∧
      (PModels.remove_guild_premium ⟨[], []⟩ ⟨[], [], []⟩ 124).2.1 = ⟨[], []⟩ ∧
      (PModels.remove_guild_premium ⟨[], []⟩ ⟨[], [], []⟩ 124).2.2 = ⟨[], [], []⟩) ∧
    ((PModels.remove_user_premium ⟨[], []⟩ ⟨[], [], []⟩ 124).1 = false ∧
      (PModels.remove_user_premium ⟨[], []⟩ ⟨[], [], []⟩ 124).2.1 = ⟨[], []⟩ ∧
      (PModels.remove_user_premium ⟨[], []⟩ ⟨[], [], []⟩ 124).2.2 = ⟨[], [], []⟩) ∧
    ((Enhanced.remove_guild_premium [] (.store []) 100 124).1 = true ∧
      (Enhanced.remove_guild_premium [] (.store []) 100 124).2.2 =
        .store [⟨124, false, none, [], .noneVal⟩]) :=
  ⟨c7_revoke_missing.1 ⟨[], []⟩ ⟨[], [], []⟩ 124 rfl,
   c7_revoke_missing.2.1 ⟨[], []⟩ ⟨[], [], []⟩ 124 rfl,
   c7_revoke_missing.2.2 [] [] 100 124 rfl⟩
